import Mathlib

/-!
# readmem: a shallow embedding of `main.c`

The development models the Mach-O dumping logic of `readmem` (LP64 build,
little-endian host).  The kernel interfaces (`task_for_pid`, `mach_vm_region`,
`mach_vm_read_overwrite`, `vm_region_recurse_64`) are parameters of the model:
a `Target` is the kernel's view of the inspected process, taken as a snapshot
that does not change during one run.  Memory owned by the tool itself (the
header struct, the `malloc`ed load-command block, the output buffer) is a
function from byte offsets to byte values, so that every pointer dereference of
the C code has a value in the model, also the ones past the end of a block.
The `malloc` calls whose result the program does not test are assumed to
succeed.  `exit(1)` is the `Run.exit` outcome.
-/

namespace Readmem

set_option maxRecDepth 100000

/-! ## Constants of `main.c` and of `<mach-o/loader.h>` -/

/-- The `MAX_SIZE` define of `main.c`. -/
def MAX_SIZE : Nat := 100000000

/-- Magic of a 32-bit Mach-O header (`<mach-o/loader.h>`). -/
def MH_MAGIC : Nat := 0xfeedface

/-- Magic of a 64-bit Mach-O header (`<mach-o/loader.h>`). -/
def MH_MAGIC_64 : Nat := 0xfeedfacf

/-- File type of a demand-paged executable (`<mach-o/loader.h>`). -/
def MH_EXECUTE : Nat := 0x2

/-- Load command tag of a 32-bit segment (`<mach-o/loader.h>`). -/
def LC_SEGMENT : Nat := 0x1

/-- Load command tag of a 64-bit segment (`<mach-o/loader.h>`). -/
def LC_SEGMENT_64 : Nat := 0x19

/-- Mach return code for success. -/
def KERN_SUCCESS : Nat := 0

/-- Mach return code `KERN_FAILURE`. -/
def KERN_FAILURE : Nat := 5

/-- Value of `sizeof(struct mach_header)`. -/
def sizeof_mach_header : Nat := 28

/-- Value of `sizeof(struct mach_header_64)`. -/
def sizeof_mach_header_64 : Nat := 32

/-- Number of values of a 64-bit unsigned integer. -/
def W64 : Nat := 2 ^ 64

/-- Number of values of a 32-bit unsigned integer. -/
def W32 : Nat := 2 ^ 32

/-! ## Local memory and field decoding -/

/-- Memory of the tool seen through one pointer: byte value at each offset. -/
abbrev Buf := Nat → Nat

/-- One byte (`uint8_t`) at an offset. -/
def u8 (b : Buf) (off : Nat) : Nat := b off % 256

/-- A little-endian `uint32_t` field at an offset. -/
def u32 (b : Buf) (off : Nat) : Nat :=
  u8 b off + 256 * u8 b (off + 1) + 65536 * u8 b (off + 2) + 16777216 * u8 b (off + 3)

/-- A little-endian `uint64_t` field at an offset. -/
def u64 (b : Buf) (off : Nat) : Nat :=
  u32 b off + 4294967296 * u32 b (off + 4)

/-- Store `data` at offset `off` of a block, leaving the other bytes as they were. -/
def writeAt (b : Buf) (off : Nat) (data : List Nat) : Buf :=
  fun i => if off ≤ i ∧ i - off < data.length then data.getD (i - off) 0 else b i

/-- A C string literal: its characters, then NUL. -/
def cstr (chars : List Nat) : Nat → Nat := fun i => chars.getD i 0

/-- The literal "__PAGEZERO". -/
def str_PAGEZERO : List Nat := [95, 95, 80, 65, 71, 69, 90, 69, 82, 79]

/-- The literal "__TEXT". -/
def str_TEXT : List Nat := [95, 95, 84, 69, 88, 84]

/-- The C library `strncmp` on unsigned characters: compares at most `n`
characters and stops after a NUL that both strings share. -/
def strncmp (s1 s2 : Nat → Nat) : Nat → Int
  | 0 => 0
  | n + 1 =>
    if s1 0 ≠ s2 0 then (s1 0 : Int) - (s2 0 : Int)
    else if s1 0 = 0 then 0
    else strncmp (fun i => s1 (i + 1)) (fun i => s2 (i + 1)) n

/-- The `cmd` field of the load command at `cur`. -/
def lc_cmd (loadcmds : Buf) (cur : Nat) : Nat := u32 loadcmds cur

/-- The `cmdsize` field of the load command at `cur`. -/
def lc_cmdsize (loadcmds : Buf) (cur : Nat) : Nat := u32 loadcmds (cur + 4)

/-- The `segname` field (offset 8 in both segment command layouts). -/
def seg_segname (loadcmds : Buf) (cur : Nat) : Nat → Nat := fun i => u8 loadcmds (cur + 8 + i)

/-- Field `vmaddr` of `struct segment_command`. -/
def seg_vmaddr (loadcmds : Buf) (cur : Nat) : Nat := u32 loadcmds (cur + 24)

/-- Field `filesize` of `struct segment_command`. -/
def seg_filesize (loadcmds : Buf) (cur : Nat) : Nat := u32 loadcmds (cur + 36)

/-- Field `vmaddr` of `struct segment_command_64`. -/
def seg64_vmaddr (loadcmds : Buf) (cur : Nat) : Nat := u64 loadcmds (cur + 24)

/-- Field `filesize` of `struct segment_command_64`. -/
def seg64_filesize (loadcmds : Buf) (cur : Nat) : Nat := u64 loadcmds (cur + 48)

/-! ## The kernel's view of the target and the observable behaviour -/

/-- Result of one `mach_vm_read_overwrite` call: the return code, the byte
count reported through `outsize`, and the bytes the kernel stored at the
destination (at most the requested size is kept). -/
structure ReadResult where
  kr : Nat
  nread : Nat
  data : List Nat

/-- The part of `vm_region_basic_info_data_64_t` that `main` looks at. -/
structure RegionInfo where
  protection : Nat
  max_protection : Nat
deriving DecidableEq, Repr

/-- The kernel's answers about the inspected process. -/
structure Target where
  /-- whether `task_for_pid` returns 0 -/
  task_for_pid : Bool
  /-- answer of `mach_vm_region` queried at an address: an error code or the region info -/
  mach_vm_region : Nat → Except Nat RegionInfo
  /-- answer of `mach_vm_read_overwrite` for an address and a size -/
  mach_vm_read_overwrite : Nat → Nat → ReadResult
  /-- answer of `vm_region_recurse_64` for a start address: `none` for a
  non-zero return code, else the base and size of the region found -/
  vm_region_recurse_64 : Nat → Option (Nat × Nat)

/-- Diagnostics printed by the program. -/
inductive Msg where
  | task_for_pid_failed
  | mach_vm_region_failed (kr : Nat)
  | vm_read_failed (kr : Nat)
  | vm_read_short (size nread : Nat)
  | not_macho
  | usage_error
  | invalid_size
  | cannot_open_output
  | full_dump_requires_output
  | cannot_find_main_binary
  | image_size_zero
  | write_error
  | ok_full_binary_dumped
  | ok_memory_dumped
  | memory_allocation_failed
deriving DecidableEq, Repr

/-- Observable actions, in program order. -/
inductive Event where
  /-- one `mach_vm_read_overwrite` call -/
  | vm_read (address size : Nat)
  /-- a line on stdout or stderr -/
  | msg (m : Msg)
  /-- allocation of the read buffer -/
  | malloc (size : Nat)
  /-- the bytes handed to `fwrite` -/
  | fwrite (data : List Nat)
  /-- the console rendering of the read buffer -/
  | console (info : RegionInfo) (address : Nat) (data : List Nat)
deriving DecidableEq, Repr

/-- Program state shared by the functions: the global `vmaddr_slide` and the
actions performed so far. -/
structure World where
  vmaddr_slide : Nat
  trace : List Event
deriving DecidableEq, Repr

/-- Append one action to the trace. -/
def World.log (w : World) (e : Event) : World :=
  { w with trace := w.trace ++ [e] }

/-- State at program start: `vmaddr_slide = 0`, nothing done yet. -/
def World.init : World := { vmaddr_slide := 0, trace := [] }

/-- Outcome of running a function: it returns a value, or the process exits. -/
inductive Run (α : Type) where
  | ret (a : α) (w : World)
  | exit (code : Nat) (w : World)

/-- State in which a run ended. -/
def Run.world {α : Type} : Run α → World
  | .ret _ w => w
  | .exit _ w => w

/-! ## `readmem` -/

/-- The function `readmem`: `buffer` and `doff` together are the destination pointer. -/
def readmem (t : Target) (buffer : Buf) (doff : Nat) (address size : Nat) (w : World) :
    Run (Buf × RegionInfo) :=
  if t.task_for_pid = false then
    .exit 1 (w.log (.msg .task_for_pid_failed))
  else
    match t.mach_vm_region address with
    | .error kr => .exit 1 (w.log (.msg (.mach_vm_region_failed kr)))
    | .ok info =>
      let r := t.mach_vm_read_overwrite address size
      let w1 := w.log (.vm_read address size)
      let buffer1 := writeAt buffer doff (r.data.take size)
      if r.kr ≠ 0 then
        .ret (buffer1, info) (w1.log (.msg (.vm_read_failed r.kr)))
      else if r.nread ≠ size then
        .ret (buffer1, info) (w1.log (.msg (.vm_read_short size r.nread)))
      else
        .ret (buffer1, info) w1

/-! ## `get_image_size` -/

/-- Body of the `for` loop of `get_image_size` at cursor `cur`, acting on the
pair (`vmaddr_slide`, `imagefilesize`). -/
def gis_body (loadcmds : Buf) (address : Nat) (cur : Nat) (st : Nat × Nat) : Nat × Nat :=
  if lc_cmd loadcmds cur = LC_SEGMENT then
    if strncmp (seg_segname loadcmds cur) (cstr str_PAGEZERO) 16 ≠ 0 then
      let slide :=
        if strncmp (seg_segname loadcmds cur) (cstr str_TEXT) 16 = 0 then
          (address + W64 - seg_vmaddr loadcmds cur) % W64
        else st.1
      (slide, (st.2 + seg_filesize loadcmds cur) % W64)
    else st
  else if lc_cmd loadcmds cur = LC_SEGMENT_64 then
    if strncmp (seg_segname loadcmds cur) (cstr str_PAGEZERO) 16 ≠ 0 then
      let slide :=
        if strncmp (seg_segname loadcmds cur) (cstr str_TEXT) 16 = 0 then
          (address + W64 - seg64_vmaddr loadcmds cur) % W64
        else st.1
      (slide, (st.2 + seg64_filesize loadcmds cur) % W64)
    else st
  else st

/-- The `for` loop of `get_image_size`: the first argument is the number of
iterations left (`header.ncmds - i`), `cur` is `loadCmdAddress - loadcmds`. -/
def gis_loop (loadcmds : Buf) (address : Nat) : Nat → Nat → Nat × Nat → Nat × Nat
  | 0, _, st => st
  | n + 1, cur, st =>
    gis_loop loadcmds address n (cur + lc_cmdsize loadcmds cur) (gis_body loadcmds address cur st)

/-- The function `get_image_size`; `heap` is the content of the freshly
allocated load-command block and of the memory behind it. -/
def get_image_size (t : Target) (heap : Buf) (address : Nat) (w : World) : Run Nat :=
  match readmem t (fun _ => 0) 0 address sizeof_mach_header w with
  | .exit c w1 => .exit c w1
  | .ret (header, _) w1 =>
    if u32 header 0 ≠ MH_MAGIC ∧ u32 header 0 ≠ MH_MAGIC_64 then
      .exit 1 (w1.log (.msg .not_macho))
    else
      let mach_header_size :=
        if u32 header 0 = MH_MAGIC_64 then sizeof_mach_header_64 else sizeof_mach_header
      match readmem t heap 0 ((address + mach_header_size) % W64) (u32 header 20) w1 with
      | .exit c w2 => .exit c w2
      | .ret (loadcmds, _) w2 =>
        let st := gis_loop loadcmds address (u32 header 16) 0 (w2.vmaddr_slide, 0)
        .ret st.2 { w2 with vmaddr_slide := st.1 }

/-! ## `dump_binary` -/

/-- The `for` loop of `dump_binary`: iterations left, cursor into the load
commands, the output block with the current offset of `buffer` in it. -/
def dump_loop (t : Target) (loadcmds : Buf) :
    Nat → Nat → Buf → Nat → World → Run (Buf × Nat)
  | 0, _, buffer, off, w => .ret (buffer, off) w
  | n + 1, cur, buffer, off, w =>
    if lc_cmd loadcmds cur = LC_SEGMENT then
      if strncmp (seg_segname loadcmds cur) (cstr str_PAGEZERO) 16 ≠ 0 then
        match readmem t buffer off ((seg_vmaddr loadcmds cur + w.vmaddr_slide) % W64)
            (seg_filesize loadcmds cur) w with
        | .exit c w1 => .exit c w1
        | .ret (buffer1, _) w1 =>
          dump_loop t loadcmds n (cur + lc_cmdsize loadcmds cur) buffer1
            ((off + seg_filesize loadcmds cur) % W64) w1
      else
        dump_loop t loadcmds n (cur + lc_cmdsize loadcmds cur) buffer
          ((off + seg_filesize loadcmds cur) % W64) w
    else if lc_cmd loadcmds cur = LC_SEGMENT_64 then
      if strncmp (seg_segname loadcmds cur) (cstr str_PAGEZERO) 16 ≠ 0 then
        match readmem t buffer off ((seg64_vmaddr loadcmds cur + w.vmaddr_slide) % W64)
            (seg64_filesize loadcmds cur) w with
        | .exit c w1 => .exit c w1
        | .ret (buffer1, _) w1 =>
          dump_loop t loadcmds n (cur + lc_cmdsize loadcmds cur) buffer1
            ((off + seg64_filesize loadcmds cur) % W64) w1
      else
        dump_loop t loadcmds n (cur + lc_cmdsize loadcmds cur) buffer
          ((off + seg64_filesize loadcmds cur) % W64) w
    else
      dump_loop t loadcmds n (cur + lc_cmdsize loadcmds cur) buffer off w

/-- The function `dump_binary`; it returns the output block after the segment
reads. -/
def dump_binary (t : Target) (heap : Buf) (address : Nat) (buffer : Buf) (w : World) :
    Run Buf :=
  match readmem t (fun _ => 0) 0 address sizeof_mach_header w with
  | .exit c w1 => .exit c w1
  | .ret (header, _) w1 =>
    if u32 header 0 ≠ MH_MAGIC ∧ u32 header 0 ≠ MH_MAGIC_64 then
      .exit 1 (w1.log (.msg .not_macho))
    else
      let mach_header_size :=
        if u32 header 0 = MH_MAGIC_64 then sizeof_mach_header_64 else sizeof_mach_header
      match readmem t heap 0 ((address + mach_header_size) % W64) (u32 header 20) w1 with
      | .exit c w2 => .exit c w2
      | .ret (loadcmds, _) w2 =>
        match dump_loop t loadcmds (u32 header 16) 0 buffer 0 w2 with
        | .exit c w3 => .exit c w3
        | .ret (buffer1, _) w3 => .ret buffer1 w3

/-! ## `find_main_binary` -/

/-- The `while (1)` loop of `find_main_binary`.  The first argument bounds the
number of iterations; `none` means the bound was reached.  The loop state is
`iter` and the content of `*main_address`. -/
def fmb_loop (t : Target) : Nat → Nat → Nat → World → Option (Nat × World)
  | 0, _, _, _ => none
  | fuel + 1, iter, main_address, w =>
    match t.vm_region_recurse_64 iter with
    | none => some (main_address, w)
    | some (addr, lsize) =>
      let r := t.mach_vm_read_overwrite addr sizeof_mach_header
      let w1 := w.log (.vm_read addr sizeof_mach_header)
      let mh := writeAt (fun _ => 0) 0 (r.data.take sizeof_mach_header)
      if r.kr = KERN_SUCCESS ∧ r.nread = sizeof_mach_header ∧
          (u32 mh 0 = MH_MAGIC ∨ u32 mh 0 = MH_MAGIC_64) ∧ u32 mh 12 = MH_EXECUTE then
        some (addr, w1)
      else
        fmb_loop t fuel ((addr + lsize) % W64) main_address w1

/-- The function `find_main_binary`: the return code and the content of
`*main_address` afterwards. -/
def find_main_binary (t : Target) (fuel : Nat) (main_address : Nat) (w : World) :
    Option (Nat × Nat × World) :=
  if t.task_for_pid = false then
    some (KERN_FAILURE, main_address, w.log (.msg .task_for_pid_failed))
  else
    match fmb_loop t fuel 0 main_address w with
    | none => none
    | some (a, w1) => some (KERN_SUCCESS, a, w1)

/-! ## `main` -/

/-- The command line as the `getopt_long` loop reads it. -/
structure Options where
  pid : Nat
  address : Nat
  /-- the value `strtoul` returned for `-s` (16 without the option); `main`
  keeps it cast to `uint32_t` -/
  size : Nat
  outputname : Option String
  fulldump : Bool
  maindump : Bool

/-- The tool's own environment: results of `fopen` and `fwrite`, whether the
checked `malloc(size)` returns a block, and the initial content of the three
allocated blocks. -/
structure Host where
  fopen_ok : Bool
  fwrite_ok : Bool
  malloc_ok : Bool
  heap_size : Buf
  heap_dump : Buf
  heap_readbuffer : Buf

/-- The `fulldump || maindump` branch of `main`. -/
def main_image (t : Target) (h : Host) (o : Options) (fuel : Nat) (w : World) :
    Option (Run Nat) :=
  let located : Option (Nat × Nat × World) :=
    if o.maindump then find_main_binary t fuel o.address w
    else some (KERN_SUCCESS, o.address, w)
  match located with
  | none => none
  | some (kr, address, w1) =>
    if kr ≠ 0 then some (.exit 1 (w1.log (.msg .cannot_find_main_binary)))
    else
      match get_image_size t h.heap_size address w1 with
      | .exit c w2 => some (.exit c w2)
      | .ret imagesize w2 =>
        if imagesize = 0 then some (.exit 1 (w2.log (.msg .image_size_zero)))
        else
          match dump_binary t h.heap_dump address h.heap_readbuffer
              (w2.log (.malloc imagesize)) with
          | .exit c w4 => some (.exit c w4)
          | .ret readbuffer w4 =>
            if o.outputname ≠ none then
              let w5 := w4.log (.fwrite ((List.range imagesize).map (u8 readbuffer)))
              if h.fwrite_ok = false then some (.exit 1 (w5.log (.msg .write_error)))
              else some (.ret 0 (w5.log (.msg .ok_full_binary_dumped)))
            else some (.ret 0 w4)

/-- The plain-read branch of `main`; `size` is the local `uint32_t size`. -/
def main_plain (t : Target) (h : Host) (o : Options) (size : Nat) (w : World) : Run Nat :=
  match readmem t h.heap_readbuffer 0 o.address size w with
  | .exit c w1 => .exit c w1
  | .ret (readbuffer, region_info) w1 =>
    if o.outputname ≠ none then
      let w2 := w1.log (.fwrite ((List.range size).map (u8 readbuffer)))
      if h.fwrite_ok = false then .exit 1 (w2.log (.msg .write_error))
      else .ret 0 (w2.log (.msg .ok_memory_dumped))
    else
      .ret 0 (w1.log (.console region_info o.address ((List.range size).map (u8 readbuffer))))

/-- The function `main` from the end of option parsing on.  The local `size`
is `(uint32_t)strtoul(optarg, NULL, 0)`.  `fuel` bounds the region scan of
`find_main_binary`. -/
def main (t : Target) (h : Host) (o : Options) (fuel : Nat) : Option (Run Nat) :=
  let w := World.init
  let size := o.size % W32
  if o.pid = 0 then some (.exit 1 (w.log (.msg .usage_error)))
  else if o.fulldump = true ∧ o.address = 0 then some (.exit 1 (w.log (.msg .usage_error)))
  else if o.fulldump = true ∧ o.outputname = none then
    some (.exit 1 (w.log (.msg .usage_error)))
  else if o.outputname ≠ none ∧ o.address = 0 ∧ o.maindump = false then
    some (.exit 1 (w.log (.msg .usage_error)))
  else if o.maindump = true ∧ o.outputname = none then
    some (.exit 1 (w.log (.msg .usage_error)))
  else if size > MAX_SIZE ∨ (size = 0 ∧ o.fulldump = false) then
    some (.exit 1 (w.log (.msg .invalid_size)))
  else if o.fulldump = false ∧ h.malloc_ok = false then
    some (.exit 1 ((w.log (.malloc size)).log (.msg .memory_allocation_failed)))
  else
    let w1 := if o.fulldump = false then w.log (.malloc size) else w
    if o.outputname ≠ none ∧ h.fopen_ok = false then
      some (.exit 1 (w1.log (.msg .cannot_open_output)))
    else if o.outputname = none ∧ o.fulldump = true then
      some (.exit 1 (w1.log (.msg .full_dump_requires_output)))
    else if o.fulldump = true ∨ o.maindump = true then main_image t h o fuel w1
    else some (main_plain t h o size w1)

/-! ## Concrete targets used to run the model -/

/-- A target whose whole address space is mapped and readable: every read
returns the bytes of `mem`, addresses taken modulo `2 ^ 64`. -/
def memTarget (mem : Nat → Nat) : Target :=
  { task_for_pid := true
    mach_vm_region := fun _ => .ok { protection := 5, max_protection := 7 }
    mach_vm_read_overwrite := fun a n =>
      { kr := 0, nread := n, data := (List.range n).map (fun i => mem ((a + i) % W64)) }
    vm_region_recurse_64 := fun _ => none }

/-- The region that `vm_region_recurse_64` reports for a start address, for a
process whose regions are `regions` (base and size, ascending): the first one
that ends above the address. -/
def region_lookup (regions : List (Nat × Nat)) (iter : Nat) : Option (Nat × Nat) :=
  regions.find? (fun r => decide (iter < r.1 + r.2))

/-- Little-endian bytes of a field of the given width. -/
def le_bytes (v : Nat) : Nat → List Nat
  | 0 => []
  | n + 1 => v % 256 :: le_bytes (v / 256) n

/-- A name padded with NUL bytes to the 16 bytes of a `segname` field. -/
def segname_bytes (name : List Nat) : List Nat :=
  (name ++ List.replicate 16 0).take 16

/-- Bytes of a `struct segment_command_64` without sections. -/
def segment_command_64_bytes (name : List Nat) (vmaddr filesize cmdsize : Nat) : List Nat :=
  le_bytes LC_SEGMENT_64 4 ++ le_bytes cmdsize 4 ++ segname_bytes name ++
  le_bytes vmaddr 8 ++ le_bytes filesize 8 ++ le_bytes 0 8 ++ le_bytes filesize 8 ++
  le_bytes 7 4 ++ le_bytes 5 4 ++ le_bytes 0 4 ++ le_bytes 0 4

/-- Bytes of a `struct segment_command` without sections. -/
def segment_command_bytes (name : List Nat) (vmaddr filesize cmdsize : Nat) : List Nat :=
  le_bytes LC_SEGMENT 4 ++ le_bytes cmdsize 4 ++ segname_bytes name ++
  le_bytes vmaddr 4 ++ le_bytes filesize 4 ++ le_bytes 0 4 ++ le_bytes filesize 4 ++
  le_bytes 7 4 ++ le_bytes 5 4 ++ le_bytes 0 4 ++ le_bytes 0 4

/-- Bytes of a `struct mach_header_64`. -/
def mach_header_64_bytes (filetype ncmds sizeofcmds : Nat) : List Nat :=
  le_bytes MH_MAGIC_64 4 ++ le_bytes 0x01000007 4 ++ le_bytes 3 4 ++ le_bytes filetype 4 ++
  le_bytes ncmds 4 ++ le_bytes sizeofcmds 4 ++ le_bytes 0 4 ++ le_bytes 0 4

/-- Bytes of a `struct mach_header`. -/
def mach_header_bytes (filetype ncmds sizeofcmds : Nat) : List Nat :=
  le_bytes MH_MAGIC 4 ++ le_bytes 7 4 ++ le_bytes 3 4 ++ le_bytes filetype 4 ++
  le_bytes ncmds 4 ++ le_bytes sizeofcmds 4 ++ le_bytes 0 4

/-- Target memory holding `image` at `base` and the byte `fill` elsewhere. -/
def imageMem (base : Nat) (image : List Nat) (fill : Nat) : Nat → Nat :=
  fun a => if base ≤ a ∧ a - base < image.length then image.getD (a - base) 0 else fill

/-- The literal "__DATA". -/
def str_DATA : List Nat := [95, 95, 68, 65, 84, 65]

/-- Load commands of Scenario A: "__PAGEZERO" (vmaddr 0, filesize 0), "__TEXT"
(vmaddr 0x1000, filesize 0x2000), "__DATA" (vmaddr 0x4000, filesize 0x1000). -/
def scenA_cmds : List Nat :=
  segment_command_64_bytes str_PAGEZERO 0 0 72 ++
  segment_command_64_bytes str_TEXT 0x1000 0x2000 72 ++
  segment_command_64_bytes str_DATA 0x4000 0x1000 72

/-- The image of Scenario A: a 64-bit header and its three commands. -/
def scenA_image : List Nat := mach_header_64_bytes MH_EXECUTE 3 216 ++ scenA_cmds

/-- Target memory of Scenario A: the image at live base 0x100000. -/
def scenA_mem : Nat → Nat := imageMem 0x100000 scenA_image 0

/-- A host on which the output file opens and is written. -/
def host_ok : Host :=
  { fopen_ok := true, fwrite_ok := true, malloc_ok := true
    heap_size := fun _ => 0, heap_dump := fun _ => 0, heap_readbuffer := fun _ => 0 }

/-- Options of `readmem -p 42 -a 0x100000 -o memdump -f`. -/
def opts_full_A : Options :=
  { pid := 42, address := 0x100000, size := 16, outputname := some "memdump"
    fulldump := true, maindump := false }

/-- The value a run returned, if it returned. -/
def Run.value? {α : Type} : Run α → Option α
  | .ret a _ => some a
  | .exit _ _ => none

/-- The byte strings handed to `fwrite` in a trace. -/
def fwrites (tr : List Event) : List (List Nat) :=
  tr.filterMap (fun e => match e with | .fwrite d => some d | _ => none)

/-- The diagnostics printed in a trace. -/
def msgs (tr : List Event) : List Msg :=
  tr.filterMap (fun e => match e with | .msg m => some m | _ => none)

/-- The console renderings in a trace: the bytes shown. -/
def consoles (tr : List Event) : List (List Nat) :=
  tr.filterMap (fun e => match e with | .console _ _ d => some d | _ => none)

/-- A host whose fresh blocks are filled with the byte 0xEE. -/
def host_garbage : Host :=
  { fopen_ok := true, fwrite_ok := true, malloc_ok := true
    heap_size := fun _ => 0xEE, heap_dump := fun _ => 0xEE, heap_readbuffer := fun _ => 0xEE }

/-- Load commands with a "__PAGEZERO" segment whose `filesize` is 0x10,
followed by "__TEXT" (vmaddr 0x1000, filesize 0x20). -/
def pz_cmds : List Nat :=
  segment_command_64_bytes str_PAGEZERO 0 0x10 72 ++
  segment_command_64_bytes str_TEXT 0x1000 0x20 72

/-- An image with the commands `pz_cmds`. -/
def pz_image : List Nat := mach_header_64_bytes MH_EXECUTE 2 144 ++ pz_cmds

/-- Target memory holding `pz_image` at 0x100000. -/
def pz_mem : Nat → Nat := imageMem 0x100000 pz_image 0

/-- Scenario A with 32-bit structures. -/
def scenA32_image : List Nat :=
  mach_header_bytes MH_EXECUTE 3 168 ++
  segment_command_bytes str_PAGEZERO 0 0 56 ++
  segment_command_bytes str_TEXT 0x1000 0x2000 56 ++
  segment_command_bytes str_DATA 0x4000 0x1000 56

/-- Target memory of the 32-bit Scenario A: the image at live base 0x100000. -/
def scenA32_mem : Nat → Nat := imageMem 0x100000 scenA32_image 0

/-! ## Specification-side reading of a load-command table -/

/-- The name held in a 16-byte `segname` field, read as a C string: the bytes
before the first NUL, at most 16. -/
def c_name (field : Nat → Nat) : List Nat :=
  ((List.range 16).map field).takeWhile (fun c => decide (c ≠ 0))

/-- A decoded load command: a segment of either width with its name, virtual
address and file size, or a command of another kind. -/
inductive Command where
  | segment (name : List Nat) (vmaddr filesize : Nat)
  | other
deriving DecidableEq, Repr

/-- Decode the record at offset `cur` of a table. -/
def decode_command (table : Buf) (cur : Nat) : Command :=
  if lc_cmd table cur = LC_SEGMENT then
    .segment (c_name (seg_segname table cur)) (seg_vmaddr table cur) (seg_filesize table cur)
  else if lc_cmd table cur = LC_SEGMENT_64 then
    .segment (c_name (seg_segname table cur)) (seg64_vmaddr table cur)
      (seg64_filesize table cur)
  else .other

/-- The first `n` records of a table starting at offset `cur`, each record
beginning where the declared size of the previous one ends. -/
def commands (table : Buf) : Nat → Nat → List Command
  | 0, _ => []
  | n + 1, cur => decode_command table cur :: commands table n (cur + lc_cmdsize table cur)

/-- File size a command contributes to the image: that of a segment not named
"__PAGEZERO", nothing otherwise. -/
def counted_filesize : Command → Nat
  | .segment name _ filesize => if name = str_PAGEZERO then 0 else filesize
  | .other => 0

/-- Specified image size: the 64-bit sum of the counted file sizes. -/
def spec_image_size (cmds : List Command) : Nat :=
  (cmds.map counted_filesize).sum % W64

/-- Bytes of target memory from address `a` on, `n` of them. -/
def mem_bytes (mem : Nat → Nat) (a n : Nat) : List Nat :=
  (List.range n).map (fun i => mem ((a + i) % W64))

/-- The header struct after `readmem` filled it from a fully readable target. -/
def header_of (mem : Nat → Nat) (address : Nat) : Buf :=
  writeAt (fun _ => 0) 0 (mem_bytes mem address sizeof_mach_header)

/-- Size of the header that the magic selects. -/
def header_size_of (mem : Nat → Nat) (address : Nat) : Nat :=
  if u32 (header_of mem address) 0 = MH_MAGIC_64 then sizeof_mach_header_64
  else sizeof_mach_header

/-- The load-command block after `readmem` filled it from a fully readable
target: the `sizeofcmds` bytes that follow the header, then what the heap held. -/
def loadcmds_of (mem : Nat → Nat) (heap : Buf) (address : Nat) : Buf :=
  writeAt heap 0
    (mem_bytes mem ((address + header_size_of mem address) % W64)
      (u32 (header_of mem address) 20))

/-- The commands of the image at `address`: `ncmds` records of its table. -/
def image_commands (mem : Nat → Nat) (heap : Buf) (address : Nat) : List Command :=
  commands (loadcmds_of mem heap address) (u32 (header_of mem address) 16) 0

/-- Sizes of the allocations recorded in a trace. -/
def allocs (tr : List Event) : List Nat :=
  tr.filterMap (fun e => match e with | .malloc n => some n | _ => none)

/-- Lengths of the byte strings written to the output file in a trace. -/
def written (tr : List Event) : List Nat :=
  tr.filterMap (fun e => match e with | .fwrite d => some d.length | _ => none)

/-- The reads issued in a trace: address and size of each. -/
def reads (tr : List Event) : List (Nat × Nat) :=
  tr.filterMap (fun e => match e with | .vm_read a n => some (a, n) | _ => none)

/-- The step `get_image_size` followed by `dump_binary` that `main` performs
for a whole-image dump: the image size and the first that many bytes of the
output buffer. -/
def dump_image (t : Target) (h : Host) (address : Nat) (w : World) : Run (Nat × List Nat) :=
  match get_image_size t h.heap_size address w with
  | .exit c w1 => .exit c w1
  | .ret imagesize w1 =>
    match dump_binary t h.heap_dump address h.heap_readbuffer w1 with
    | .exit c w2 => .exit c w2
    | .ret readbuffer w2 => .ret (imagesize, (List.range imagesize).map (u8 readbuffer)) w2

/-- Virtual address of a command when it is a segment named "__TEXT". -/
def text_of : Command → Option Nat
  | .segment name vmaddr _ => if name = str_TEXT then some vmaddr else none
  | .other => none

/-- Virtual address of the last segment named "__TEXT" of a table, if any. -/
def text_vmaddr : List Command → Option Nat
  | [] => none
  | c :: cs =>
    match text_vmaddr cs with
    | some v => some v
    | none => text_of c

/-- An image without a "__TEXT" segment: one "__DATA" segment (vmaddr 0x2000,
filesize 1). -/
def notext_image : List Nat :=
  mach_header_64_bytes MH_EXECUTE 1 72 ++ segment_command_64_bytes str_DATA 0x2000 1 72

/-- Target memory with `notext_image` at 0x100000 and the byte 0xAA at 0x2000. -/
def notext_mem1 : Nat → Nat :=
  fun a => if a = 0x2000 then 0xAA else imageMem 0x100000 notext_image 0 a

/-- The memory `notext_mem1` moved up by 0x100000 bytes (modulo `2 ^ 64`). -/
def notext_mem2 : Nat → Nat :=
  fun a => notext_mem1 ((a + (W64 - 0x100000)) % W64)

/-- The memory of Scenario A moved up by 0x200000 bytes (modulo `2 ^ 64`). -/
def scenA_mem_moved : Nat → Nat :=
  fun a => scenA_mem ((a + (W64 - 0x200000)) % W64)

/-- The read `dump_binary` issues for a command under a given slide: for a
segment not named "__PAGEZERO", its `filesize` bytes at `vmaddr + slide`. -/
def read_of (slide : Nat) : Command → Option (Nat × Nat)
  | .segment name vmaddr filesize =>
    if name = str_PAGEZERO then none else some ((vmaddr + slide) % W64, filesize)
  | .other => none

/-- The segment reads of a table, in load-command order. -/
def segment_reads (slide : Nat) (cmds : List Command) : List (Nat × Nat) :=
  cmds.filterMap (read_of slide)

/-- Cursor reached from `cur` after `k` records, each advancing by its declared size. -/
def cursor_after (table : Buf) : Nat → Nat → Nat
  | 0, cur => cur
  | k + 1, cur => cursor_after table k (cur + lc_cmdsize table cur)

/-- An image whose only record, a "__TEXT" segment with `filesize` 0x20,
declares `cmdsize` 0, under a header that announces two commands. -/
def zero_image : List Nat :=
  mach_header_64_bytes MH_EXECUTE 2 72 ++ segment_command_64_bytes str_TEXT 0x1000 0x20 0

/-- Target memory holding `zero_image` at 0x100000. -/
def zero_mem : Nat → Nat := imageMem 0x100000 zero_image 0

/-- A target in which every `mach_vm_read_overwrite` fails with return code 1
and stores nothing, while `task_for_pid` and `mach_vm_region` succeed. -/
def unreadableTarget : Target :=
  { task_for_pid := true
    mach_vm_region := fun _ => .ok { protection := 0, max_protection := 7 }
    mach_vm_read_overwrite := fun _ _ => { kr := 1, nread := 0, data := [] }
    vm_region_recurse_64 := fun _ => none }

/-- A target in which every read succeeds but delivers only 8 bytes (0x41). -/
def shortTarget : Target :=
  { task_for_pid := true
    mach_vm_region := fun _ => .ok { protection := 1, max_protection := 7 }
    mach_vm_read_overwrite := fun _ _ => { kr := 0, nread := 8, data := List.replicate 8 0x41 }
    vm_region_recurse_64 := fun _ => none }

/-- An image with "__TEXT" (vmaddr 0x1000, filesize 0x10) and "__DATA"
(vmaddr 0x4000, filesize 0x10). -/
def small_image : List Nat :=
  mach_header_64_bytes MH_EXECUTE 2 144 ++
  segment_command_64_bytes str_TEXT 0x1000 0x10 72 ++
  segment_command_64_bytes str_DATA 0x4000 0x10 72

/-- A target holding `small_image` at 0x100000 in which the read of the
"__DATA" segment (at 0x103000) fails. -/
def dataUnreadableTarget : Target :=
  { task_for_pid := true
    mach_vm_region := fun _ => .ok { protection := 5, max_protection := 7 }
    mach_vm_read_overwrite := fun a n =>
      if a = 0x103000 then { kr := 1, nread := 0, data := [] }
      else { kr := 0, nread := n, data := mem_bytes (imageMem 0x100000 small_image 0) a n }
    vm_region_recurse_64 := fun _ => none }

/-- Options of `readmem -p 42 -a 0x1000 -s 16`. -/
def opts_plain : Options :=
  { pid := 42, address := 0x1000, size := 16, outputname := none
    fulldump := false, maindump := false }

/-- Options of `readmem -p 42 -a 0x1000 -s 16 -o memdump`. -/
def opts_plain_file : Options :=
  { pid := 42, address := 0x1000, size := 16, outputname := some "memdump"
    fulldump := false, maindump := false }

/-- The header struct as the read at `address` leaves it. -/
def read_header (t : Target) (address : Nat) : Buf :=
  writeAt (fun _ => 0) 0
    ((t.mach_vm_read_overwrite address sizeof_mach_header).data.take sizeof_mach_header)

/-- Whether the header read at `addr` marks a main executable: the read
succeeds, is complete, the magic is recognized and the file type is
`MH_EXECUTE`. -/
def is_main_header (t : Target) (addr : Nat) : Bool :=
  decide ((t.mach_vm_read_overwrite addr sizeof_mach_header).kr = KERN_SUCCESS ∧
    (t.mach_vm_read_overwrite addr sizeof_mach_header).nread = sizeof_mach_header ∧
    (u32 (read_header t addr) 0 = MH_MAGIC ∨ u32 (read_header t addr) 0 = MH_MAGIC_64) ∧
    u32 (read_header t addr) 12 = MH_EXECUTE)

/-- A finite ascending sequence of regions above `lo`: each region (base,
size) is non-empty, starts at or after the end of the previous one, and ends
below `2 ^ 64`. -/
def regions_ascending : List (Nat × Nat) → Nat → Bool
  | [], _ => true
  | r :: rs, lo =>
    decide (lo ≤ r.1 ∧ 0 < r.2 ∧ r.1 + r.2 < W64) && regions_ascending rs (r.1 + r.2)

/-- The scan over a list of regions in enumeration order: read the header at
each base and stop at the first that marks a main executable.  The result is
the content of `*main_address` and the state afterwards. -/
def scan_regions (t : Target) : List (Nat × Nat) → Nat → World → Nat × World
  | [], main_address, w => (main_address, w)
  | r :: rs, main_address, w =>
    if is_main_header t r.1 = true then (r.1, w.log (.vm_read r.1 sizeof_mach_header))
    else scan_regions t rs main_address (w.log (.vm_read r.1 sizeof_mach_header))

/-- A header of file type `MH_DYLIB` (6) with one "__TEXT" segment of 16 bytes. -/
def dylib_image : List Nat :=
  mach_header_64_bytes 6 1 72 ++ segment_command_64_bytes str_TEXT 0 0x10 72

/-- The three regions of Scenario B. -/
def scenB_regions : List (Nat × Nat) :=
  [(0x1000, 0x1000), (0x100000, 0x4000), (0x200000, 0x1000)]

/-- Memory of Scenario B: the executable of Scenario A at 0x100000 and a
dylib at 0x200000. -/
def scenB_mem : Nat → Nat :=
  fun a => if 0x200000 ≤ a then imageMem 0x200000 dylib_image 0 a else scenA_mem a

/-- Target of Scenario B: three regions; reads in the first fail, the second
holds a main executable, the third a dylib. -/
def scenB_target : Target :=
  { task_for_pid := true
    mach_vm_region := fun _ => .ok { protection := 5, max_protection := 7 }
    mach_vm_read_overwrite := fun a n =>
      if a < 0x2000 then { kr := 1, nread := 0, data := [] }
      else { kr := 0, nread := n, data := mem_bytes scenB_mem a n }
    vm_region_recurse_64 := region_lookup scenB_regions }

/-- A target whose only region holds a dylib at 0x200000: no region holds a
main executable. -/
def dylib_target : Target :=
  { task_for_pid := true
    mach_vm_region := fun _ => .ok { protection := 5, max_protection := 7 }
    mach_vm_read_overwrite := fun a n =>
      { kr := 0, nread := n, data := mem_bytes (imageMem 0x200000 dylib_image 0) a n }
    vm_region_recurse_64 := region_lookup [(0x200000, 0x1000)] }

/-- Options of `readmem -p 42 -o memdump -m`. -/
def opts_main : Options :=
  { pid := 42, address := 0, size := 16, outputname := some "memdump"
    fulldump := false, maindump := true }

/-- Options of `readmem -p 42 -a 0x200000 -o memdump -m`. -/
def opts_main_addr : Options :=
  { pid := 42, address := 0x200000, size := 16, outputname := some "memdump"
    fulldump := false, maindump := true }

/-- Options of `readmem -p 42 -a 0x1000 -s 100000000`. -/
def opts_plain_max : Options :=
  { pid := 42, address := 0x1000, size := MAX_SIZE, outputname := none
    fulldump := false, maindump := false }

/-- Options of `readmem -p 42 -a 0x1000 -s 0`. -/
def opts_plain_zero : Options :=
  { pid := 42, address := 0x1000, size := 0, outputname := none
    fulldump := false, maindump := false }

/-- Options of `readmem -p 42 -a 0x1000 -s 100000001`. -/
def opts_plain_over : Options :=
  { pid := 42, address := 0x1000, size := MAX_SIZE + 1, outputname := none
    fulldump := false, maindump := false }

/-- The 16 bytes of a `segname` field. -/
def field_bytes (field : Nat → Nat) : List Nat := (List.range 16).map field

/-- Exact match of the whole fixed field: its 16 bytes are the name followed
only by zero bytes. -/
def exact_field_match (field : Nat → Nat) (name : List Nat) : Bool :=
  decide (field_bytes field = segname_bytes name)

/-- Match as a NUL-terminated string: the field starts with the characters of
the name and the byte right after them is NUL; later bytes are not looked at. -/
def name_then_nul (field : Nat → Nat) (name : List Nat) : Bool :=
  decide ((List.range name.length).map field = name ∧ field name.length = 0)

/-- The `vmaddr` field of a segment command of either width. -/
def record_vmaddr (loadcmds : Buf) (cur : Nat) : Nat :=
  if lc_cmd loadcmds cur = LC_SEGMENT then seg_vmaddr loadcmds cur else seg64_vmaddr loadcmds cur

/-- The `filesize` field of a segment command of either width. -/
def record_filesize (loadcmds : Buf) (cur : Nat) : Nat :=
  if lc_cmd loadcmds cur = LC_SEGMENT then seg_filesize loadcmds cur
  else seg64_filesize loadcmds cur

/-- An image whose two segment names are followed by a NUL and then the
non-zero byte 'X': the first field holds "__PAGEZERO", NUL, 'X' (filesize
0x10), the second "__TEXT", NUL, 'X' (vmaddr 0x1000, filesize 0x20). -/
def nulx_image : List Nat :=
  mach_header_64_bytes MH_EXECUTE 2 144 ++
  segment_command_64_bytes (str_PAGEZERO ++ [0, 88]) 0 0x10 72 ++
  segment_command_64_bytes (str_TEXT ++ [0, 88]) 0x1000 0x20 72

/-- Target memory holding `nulx_image` at 0x100000. -/
def nulx_mem : Nat → Nat := imageMem 0x100000 nulx_image 0

/-- Options of `readmem -p 42 -a 0x1000 -s 4294967312` (the size is
`2 ^ 32 + 16`). -/
def opts_plain_wrapped : Options :=
  { pid := 42, address := 0x1000, size := 4294967312, outputname := none
    fulldump := false, maindump := false }

/-- A host on which the checked `malloc(size)` returns NULL. -/
def host_no_memory : Host :=
  { fopen_ok := true, fwrite_ok := true, malloc_ok := false
    heap_size := fun _ => 0, heap_dump := fun _ => 0, heap_readbuffer := fun _ => 0 }

/-- Value of `sizeof(struct load_command)`. -/
def sizeof_load_command : Nat := 8

/-- Value of `sizeof(struct segment_command)`. -/
def sizeof_segment_command : Nat := 56

/-- Value of `sizeof(struct segment_command_64)`. -/
def sizeof_segment_command_64 : Nat := 72

/-- Size of the struct through which the walk reads the record at `cur`: a
segment command of the width its tag names, else the common prefix. -/
def record_extent (loadcmds : Buf) (cur : Nat) : Nat :=
  if lc_cmd loadcmds cur = LC_SEGMENT then sizeof_segment_command
  else if lc_cmd loadcmds cur = LC_SEGMENT_64 then sizeof_segment_command_64
  else sizeof_load_command

/-- The record at `cur` lies inside a block of `size` bytes: its prefix does,
and so does the struct the walk reads it through. -/
def record_in_block (loadcmds : Buf) (size cur : Nat) : Bool :=
  decide (cur + sizeof_load_command ≤ size ∧ cur + record_extent loadcmds cur ≤ size)

/-- Every record that a walk of `n` iterations from `cur` decodes lies inside
the block of `size` bytes. -/
def walk_in_block (loadcmds : Buf) (size : Nat) : Nat → Nat → Bool
  | 0, _ => true
  | n + 1, cur =>
    record_in_block loadcmds size cur &&
      walk_in_block loadcmds size n (cur + lc_cmdsize loadcmds cur)

/-- Bytes by which `dump_binary` advances its output pointer for a command. -/
def advance_of : Command → Nat
  | .segment _ _ filesize => filesize
  | .other => 0

/-- Offset the output pointer of `dump_binary` reaches over a table. -/
def dump_extent (cmds : List Command) : Nat := (cmds.map advance_of).sum

/-! ## Basic facts -/

theorem mem_bytes_length (mem : Nat → Nat) (a n : Nat) : (mem_bytes mem a n).length = n := by
  simp [mem_bytes]

theorem mem_bytes_take (mem : Nat → Nat) (a n : Nat) :
    (mem_bytes mem a n).take n = mem_bytes mem a n := by
  apply List.take_of_length_le
  simp [mem_bytes]

theorem readmem_memTarget (mem : Nat → Nat) (buffer : Buf) (doff a n : Nat) (w : World) :
    readmem (memTarget mem) buffer doff a n w =
      .ret (writeAt buffer doff (mem_bytes mem a n), { protection := 5, max_protection := 7 })
        (w.log (.vm_read a n)) := by
  have h := mem_bytes_take mem a n
  unfold mem_bytes at h
  simp [readmem, memTarget, mem_bytes, h]

theorem cstr_cons_succ (c : Nat) (cs : List Nat) :
    (fun i => cstr (c :: cs) (i + 1)) = cstr cs := by
  funext i
  simp [cstr]

theorem strncmp_eq_zero_iff (lit : List Nat) :
    ∀ (s : Nat → Nat) (n : Nat), (∀ c ∈ lit, c ≠ 0) → lit.length < n →
      (strncmp s (cstr lit) n = 0 ↔
        ((List.range n).map s).takeWhile (fun c => decide (c ≠ 0)) = lit) := by
  induction lit with
  | nil =>
    intro s n _ hn
    obtain ⟨m, rfl⟩ : ∃ m, n = m + 1 := ⟨n - 1, by simp at hn; omega⟩
    rw [List.range_succ_eq_map]
    by_cases h0 : s 0 = 0
    · simp [strncmp, cstr, h0]
    · have : (s 0 : Int) ≠ 0 := by exact_mod_cast h0
      simp [strncmp, cstr, h0, this]
  | cons c cs ih =>
    intro s n hnz hn
    obtain ⟨m, rfl⟩ : ∃ m, n = m + 1 := ⟨n - 1, by simp at hn; omega⟩
    have hc : c ≠ 0 := hnz c (by simp)
    have hcs : ∀ d ∈ cs, d ≠ 0 := fun d hd => hnz d (by simp [hd])
    have hm : cs.length < m := by simp at hn; omega
    have ih1 := ih (fun i => s (i + 1)) m hcs hm
    rw [List.range_succ_eq_map]
    have hmap : List.map s (List.map Nat.succ (List.range m)) =
        List.map (fun i => s (i + 1)) (List.range m) := by
      simp [List.map_map, Function.comp_def]
    by_cases hs : s 0 = c
    · have hs0 : s 0 ≠ 0 := by rw [hs]; exact hc
      have hc0 : cstr (c :: cs) 0 = c := by simp [cstr]
      rw [strncmp, hc0, cstr_cons_succ]
      simp only [List.map_cons, hmap]
      rw [if_neg (by simpa using hs), if_neg hs0, ih1]
      simp [List.takeWhile_cons, hs, hc]
    · have hc0 : cstr (c :: cs) 0 = c := by simp [cstr]
      rw [strncmp, hc0]
      rw [if_pos hs]
      simp only [List.map_cons, hmap]
      have hne : (s 0 : Int) - (c : Int) ≠ 0 := by
        intro h
        apply hs
        have : (s 0 : Int) = (c : Int) := by omega
        exact_mod_cast this
      by_cases hs0 : s 0 = 0
      · simp [List.takeWhile_cons, hs0, hne]
        simpa [hs0] using hne
      · simp [List.takeWhile_cons, hs0, hne, hs]

theorem strncmp_PAGEZERO (field : Nat → Nat) :
    strncmp field (cstr str_PAGEZERO) 16 = 0 ↔ c_name field = str_PAGEZERO := by
  unfold c_name
  exact strncmp_eq_zero_iff str_PAGEZERO field 16 (by decide) (by decide)

theorem strncmp_TEXT (field : Nat → Nat) :
    strncmp field (cstr str_TEXT) 16 = 0 ↔ c_name field = str_TEXT := by
  unfold c_name
  exact strncmp_eq_zero_iff str_TEXT field 16 (by decide) (by decide)

/-! ## The size walk against the decoded table -/

theorem counted_filesize_decode (loadcmds : Buf) (cur : Nat) :
    counted_filesize (decode_command loadcmds cur) =
      if lc_cmd loadcmds cur = LC_SEGMENT then
        if strncmp (seg_segname loadcmds cur) (cstr str_PAGEZERO) 16 ≠ 0 then
          seg_filesize loadcmds cur else 0
      else if lc_cmd loadcmds cur = LC_SEGMENT_64 then
        if strncmp (seg_segname loadcmds cur) (cstr str_PAGEZERO) 16 ≠ 0 then
          seg64_filesize loadcmds cur else 0
      else 0 := by
  unfold decode_command
  by_cases h1 : lc_cmd loadcmds cur = LC_SEGMENT
  · rw [if_pos h1, if_pos h1]
    by_cases hp : c_name (seg_segname loadcmds cur) = str_PAGEZERO
    · simp [counted_filesize, strncmp_PAGEZERO, hp]
    · simp [counted_filesize, strncmp_PAGEZERO, hp]
  · rw [if_neg h1, if_neg h1]
    by_cases h2 : lc_cmd loadcmds cur = LC_SEGMENT_64
    · rw [if_pos h2, if_pos h2]
      by_cases hp : c_name (seg_segname loadcmds cur) = str_PAGEZERO
      · simp [counted_filesize, strncmp_PAGEZERO, hp]
      · simp [counted_filesize, strncmp_PAGEZERO, hp]
    · rw [if_neg h2, if_neg h2]
      rfl

theorem gis_body_total (loadcmds : Buf) (address cur : Nat) (st : Nat × Nat)
    (hst : st.2 < W64) :
    (gis_body loadcmds address cur st).2 =
      (st.2 + counted_filesize (decode_command loadcmds cur)) % W64 := by
  rw [counted_filesize_decode]
  unfold gis_body
  have h0 : st.2 = (st.2 + 0) % W64 := by
    rw [Nat.add_zero, Nat.mod_eq_of_lt hst]
  split_ifs <;> first | rfl | exact h0

theorem gis_loop_total (loadcmds : Buf) (address : Nat) :
    ∀ (n cur : Nat) (st : Nat × Nat), st.2 < W64 →
      (gis_loop loadcmds address n cur st).2 =
        (st.2 + ((commands loadcmds n cur).map counted_filesize).sum) % W64 := by
  intro n
  induction n with
  | zero =>
    intro cur st hst
    simp [gis_loop, commands, Nat.mod_eq_of_lt hst]
  | succ n ih =>
    intro cur st hst
    have hb := gis_body_total loadcmds address cur st hst
    have hlt : (gis_body loadcmds address cur st).2 < W64 := by
      rw [hb]
      exact Nat.mod_lt _ (by decide)
    rw [gis_loop, ih _ _ hlt, hb]
    simp only [commands, List.map_cons, List.sum_cons]
    rw [Nat.mod_add_mod, Nat.add_assoc]

theorem magic_not_rejected {m : Nat} (h : m = MH_MAGIC ∨ m = MH_MAGIC_64) :
    ¬ (m ≠ MH_MAGIC ∧ m ≠ MH_MAGIC_64) := by
  rintro ⟨h1, h2⟩
  rcases h with h | h
  · exact h1 h
  · exact h2 h

theorem get_image_size_memTarget (mem : Nat → Nat) (heap : Buf) (address : Nat) (w : World)
    (hmagic : u32 (header_of mem address) 0 = MH_MAGIC ∨
      u32 (header_of mem address) 0 = MH_MAGIC_64) :
    get_image_size (memTarget mem) heap address w =
      .ret (spec_image_size (image_commands mem heap address))
        { vmaddr_slide :=
            (gis_loop (loadcmds_of mem heap address) address
              (u32 (header_of mem address) 16) 0 (w.vmaddr_slide, 0)).1
          trace := w.trace ++ [.vm_read address sizeof_mach_header,
            .vm_read ((address + header_size_of mem address) % W64)
              (u32 (header_of mem address) 20)] } := by
  unfold get_image_size
  rw [readmem_memTarget]
  have hm := magic_not_rejected hmagic
  simp only [header_of] at hm hmagic ⊢
  simp only [hm, if_false]
  rw [readmem_memTarget]
  simp only []
  have ht := gis_loop_total
    (writeAt heap 0 (mem_bytes mem ((address + header_size_of mem address) % W64)
      (u32 (header_of mem address) 20))) address
    (u32 (header_of mem address) 16) 0 (w.vmaddr_slide, 0)
    (by show (0 : Nat) < W64; decide)
  simp only [header_of, header_size_of, Nat.zero_add] at ht
  simp only [spec_image_size, image_commands, loadcmds_of, header_of, header_size_of,
    World.log, List.append_assoc, List.singleton_append]
  rw [ht]

/-! ## The dump on a fully readable target -/

theorem allocs_log_vm_read (w : World) (a n : Nat) :
    allocs (w.log (.vm_read a n)).trace = allocs w.trace := by
  simp [World.log, allocs, List.filterMap_append]

theorem written_log_vm_read (w : World) (a n : Nat) :
    written (w.log (.vm_read a n)).trace = written w.trace := by
  simp [World.log, written, List.filterMap_append]

theorem dump_loop_memTarget_ret (mem : Nat → Nat) (loadcmds : Buf) :
    ∀ (n cur : Nat) (buffer : Buf) (off : Nat) (w : World),
      ∃ b o w', dump_loop (memTarget mem) loadcmds n cur buffer off w = .ret (b, o) w' ∧
        allocs w'.trace = allocs w.trace ∧ written w'.trace = written w.trace := by
  intro n
  induction n with
  | zero =>
    intro cur buffer off w
    exact ⟨buffer, off, w, rfl, rfl, rfl⟩
  | succ n ih =>
    intro cur buffer off w
    rw [dump_loop]
    simp only [readmem_memTarget]
    split_ifs
    · obtain ⟨b, o, w', h1, h2, h3⟩ := ih (cur + lc_cmdsize loadcmds cur)
        (writeAt buffer off (mem_bytes mem ((seg_vmaddr loadcmds cur + w.vmaddr_slide) % W64)
          (seg_filesize loadcmds cur)))
        ((off + seg_filesize loadcmds cur) % W64)
        (w.log (.vm_read ((seg_vmaddr loadcmds cur + w.vmaddr_slide) % W64)
          (seg_filesize loadcmds cur)))
      exact ⟨b, o, w', h1, by rw [h2, allocs_log_vm_read], by rw [h3, written_log_vm_read]⟩
    · exact ih _ _ _ _
    · obtain ⟨b, o, w', h1, h2, h3⟩ := ih (cur + lc_cmdsize loadcmds cur)
        (writeAt buffer off (mem_bytes mem ((seg64_vmaddr loadcmds cur + w.vmaddr_slide) % W64)
          (seg64_filesize loadcmds cur)))
        ((off + seg64_filesize loadcmds cur) % W64)
        (w.log (.vm_read ((seg64_vmaddr loadcmds cur + w.vmaddr_slide) % W64)
          (seg64_filesize loadcmds cur)))
      exact ⟨b, o, w', h1, by rw [h2, allocs_log_vm_read], by rw [h3, written_log_vm_read]⟩
    · exact ih _ _ _ _
    · exact ih _ _ _ _

theorem dump_binary_memTarget_ret (mem : Nat → Nat) (heap : Buf) (address : Nat)
    (buffer : Buf) (w : World)
    (hmagic : u32 (header_of mem address) 0 = MH_MAGIC ∨
      u32 (header_of mem address) 0 = MH_MAGIC_64) :
    ∃ b w', dump_binary (memTarget mem) heap address buffer w = .ret b w' ∧
      allocs w'.trace = allocs w.trace ∧ written w'.trace = written w.trace := by
  unfold dump_binary
  rw [readmem_memTarget]
  have hm := magic_not_rejected hmagic
  simp only [header_of] at hm
  simp only [hm, if_false]
  rw [readmem_memTarget]
  simp only []
  obtain ⟨b, o, w', h1, h2, h3⟩ := dump_loop_memTarget_ret mem
    (writeAt heap 0 (mem_bytes mem
      ((address + if u32 (writeAt (fun _ => 0) 0 (mem_bytes mem address sizeof_mach_header)) 0 =
        MH_MAGIC_64 then sizeof_mach_header_64 else sizeof_mach_header) % W64)
      (u32 (writeAt (fun _ => 0) 0 (mem_bytes mem address sizeof_mach_header)) 20)))
    (u32 (writeAt (fun _ => 0) 0 (mem_bytes mem address sizeof_mach_header)) 16) 0 buffer 0
    ((w.log (.vm_read address sizeof_mach_header)).log
      (.vm_read ((address + if u32 (writeAt (fun _ => 0) 0
          (mem_bytes mem address sizeof_mach_header)) 0 =
        MH_MAGIC_64 then sizeof_mach_header_64 else sizeof_mach_header) % W64)
      (u32 (writeAt (fun _ => 0) 0 (mem_bytes mem address sizeof_mach_header)) 20)))
  refine ⟨b, w', ?_, ?_, ?_⟩
  · rw [h1]
  · rw [h2, allocs_log_vm_read, allocs_log_vm_read]
  · rw [h3, written_log_vm_read, written_log_vm_read]

theorem main_full_dump_memTarget (mem : Nat → Nat) (h : Host) (o : Options) (fuel : Nat)
    (hmagic : u32 (header_of mem o.address) 0 = MH_MAGIC ∨
      u32 (header_of mem o.address) 0 = MH_MAGIC_64)
    (hpid : o.pid ≠ 0) (haddr : o.address ≠ 0) (hfull : o.fulldump = true)
    (hmain : o.maindump = false) (hout : o.outputname ≠ none) (hsize : o.size ≤ MAX_SIZE)
    (hfopen : h.fopen_ok = true) (hfwrite : h.fwrite_ok = true) :
    (spec_image_size (image_commands mem h.heap_size o.address) ≠ 0 →
      ∃ w', main (memTarget mem) h o fuel = some (.ret 0 w') ∧
        allocs w'.trace = [spec_image_size (image_commands mem h.heap_size o.address)] ∧
        written w'.trace = [spec_image_size (image_commands mem h.heap_size o.address)]) ∧
    (spec_image_size (image_commands mem h.heap_size o.address) = 0 →
      ∃ w', main (memTarget mem) h o fuel = some (.exit 1 w') ∧
        allocs w'.trace = [] ∧ written w'.trace = []) := by
  have hsz : ¬ MAX_SIZE < o.size % W32 := by
    have := Nat.mod_le o.size W32
    omega
  have hmainEq : main (memTarget mem) h o fuel = main_image (memTarget mem) h o fuel World.init := by
    unfold main
    simp [hpid, haddr, hfull, hmain, hout, hsz, hfopen]
  rw [hmainEq]
  unfold main_image
  simp only [hmain, Bool.false_eq_true, if_false]
  rw [get_image_size_memTarget mem h.heap_size o.address World.init hmagic]
  constructor
  · intro hne
    simp only [KERN_SUCCESS, ne_eq, not_true_eq_false, if_false, hne]
    obtain ⟨b, w', h1, h2, h3⟩ := dump_binary_memTarget_ret mem h.heap_dump o.address
      h.heap_readbuffer (World.log
        { vmaddr_slide :=
            (gis_loop (loadcmds_of mem h.heap_size o.address) o.address
              (u32 (header_of mem o.address) 16) 0 (World.init.vmaddr_slide, 0)).1
          trace := World.init.trace ++ [.vm_read o.address sizeof_mach_header,
            .vm_read ((o.address + header_size_of mem o.address) % W64)
              (u32 (header_of mem o.address) 20)] }
        (.malloc (spec_image_size (image_commands mem h.heap_size o.address)))) hmagic
    rw [h1]
    simp only [hout, hfwrite, ne_eq, not_false_eq_true, if_true, Bool.true_eq_false, if_false]
    refine ⟨_, rfl, ?_, ?_⟩
    · simp only [World.log, allocs, List.filterMap_append] at h2 ⊢
      rw [h2]
      simp [World.init]
    · simp only [World.log, written, List.filterMap_append] at h3 ⊢
      rw [h3]
      simp [World.init]
  · intro hz
    simp only [KERN_SUCCESS, ne_eq, not_true_eq_false, if_false, hz, if_true]
    refine ⟨_, rfl, ?_, ?_⟩
    · simp [World.log, allocs, World.init, List.filterMap_append]
    · simp [World.log, written, World.init, List.filterMap_append]

/-- C1. On a fully readable target whose header at the start address carries
a recognized magic, `get_image_size` returns the 64-bit sum of the `filesize`
fields of the segment commands (32-bit and 64-bit) of the table that are not
named "__PAGEZERO", commands of other kinds adding nothing; and a whole-image
dump by `main` allocates a buffer of exactly that size and writes exactly that
many bytes when the sum is non-zero, while for a zero sum it stops with nothing
allocated for the image and nothing written. -/
theorem get_image_size_sums_filesize (mem : Nat → Nat) (h : Host) (o : Options) (fuel : Nat)
    (hmagic : u32 (header_of mem o.address) 0 = MH_MAGIC ∨
      u32 (header_of mem o.address) 0 = MH_MAGIC_64) :
    (∀ w : World, ∃ w', get_image_size (memTarget mem) h.heap_size o.address w =
        .ret (spec_image_size (image_commands mem h.heap_size o.address)) w') ∧
    (o.pid ≠ 0 → o.address ≠ 0 → o.fulldump = true → o.maindump = false →
      o.outputname ≠ none → o.size ≤ MAX_SIZE → h.fopen_ok = true → h.fwrite_ok = true →
      (spec_image_size (image_commands mem h.heap_size o.address) ≠ 0 →
        ∃ w', main (memTarget mem) h o fuel = some (.ret 0 w') ∧
          allocs w'.trace = [spec_image_size (image_commands mem h.heap_size o.address)] ∧
          written w'.trace = [spec_image_size (image_commands mem h.heap_size o.address)]) ∧
      (spec_image_size (image_commands mem h.heap_size o.address) = 0 →
        ∃ w', main (memTarget mem) h o fuel = some (.exit 1 w') ∧
          allocs w'.trace = [] ∧ written w'.trace = [])) := by
  refine ⟨fun w => ⟨_, get_image_size_memTarget mem h.heap_size o.address w hmagic⟩, ?_⟩
  intro hpid haddr hfull hmain hout hsize hfopen hfwrite
  exact main_full_dump_memTarget mem h o fuel hmagic hpid haddr hfull hmain hout hsize
    hfopen hfwrite

/-- Instance of C1 at Scenario A: the size is 0x3000 and `main` allocates and
writes 0x3000 bytes. -/
theorem get_image_size_sums_filesize_witness :
    (u32 (header_of scenA_mem opts_full_A.address) 0 = MH_MAGIC ∨
      u32 (header_of scenA_mem opts_full_A.address) 0 = MH_MAGIC_64) ∧
    (∃ w', get_image_size (memTarget scenA_mem) host_ok.heap_size opts_full_A.address
        World.init = .ret 0x3000 w') ∧
    (∃ w', main (memTarget scenA_mem) host_ok opts_full_A 0 = some (.ret 0 w') ∧
      allocs w'.trace = [0x3000] ∧ written w'.trace = [0x3000]) := by
  have hmagic : u32 (header_of scenA_mem opts_full_A.address) 0 = MH_MAGIC ∨
      u32 (header_of scenA_mem opts_full_A.address) 0 = MH_MAGIC_64 := by decide
  have hS : spec_image_size (image_commands scenA_mem host_ok.heap_size opts_full_A.address) =
      0x3000 := by decide
  have T := get_image_size_sums_filesize scenA_mem host_ok opts_full_A 0 hmagic
  rw [hS] at T
  exact ⟨hmagic, T.1 World.init,
    (T.2 (by decide) (by decide) rfl rfl (by decide) (by decide) rfl rfl).1 (by decide)⟩

/-! ## Evaluations at concrete images -/

/-- C2. Failing input: "__PAGEZERO" with `filesize` 0x10 followed by "__TEXT"
with `filesize` 0x20.  The image size is 0x20 and a 0x20-byte buffer is
allocated, yet `dump_binary` advances the output pointer over the skipped
"__PAGEZERO" segment: the "__TEXT" bytes land at offset 0x10, not 0, so the
file starts with 16 bytes of uninitialised heap (0xEE here) followed by the
first 16 bytes of "__TEXT". -/
theorem dump_binary_pagezero_advances_offset :
    (main (memTarget pz_mem) host_garbage opts_full_A 0).map
        (fun r => (allocs r.world.trace, fwrites r.world.trace)) =
      some ([0x20], [List.replicate 16 0xEE ++ pz_image.take 16]) ∧
    (dump_binary (memTarget pz_mem) (fun _ => 0xEE) 0x100000 (fun _ => 0xEE)
        { vmaddr_slide := 0xFF000, trace := [] }).value?.map
        (fun b => (List.range 0x30).map (u8 b)) =
      some (List.replicate 16 0xEE ++ pz_image.take 0x20) := by
  constructor <;> decide

/-- C4, as stated. In Scenario A the reconstruction issues no read at address
0x101000: the "__TEXT" read is not at the address the claim gives. -/
theorem scenarioA_no_read_at_0x101000 :
    ¬ ((0x101000, 0x2000) ∈
      reads ((get_image_size (memTarget scenA_mem) (fun _ => 0) 0x100000 World.init).world.trace ++
        (dump_binary (memTarget scenA_mem) (fun _ => 0) 0x100000 (fun _ => 0)
          (get_image_size (memTarget scenA_mem) (fun _ => 0) 0x100000 World.init).world).world.trace)) := by
  decide

/-- C4, amended. In Scenario A at live base 0x100000 the slide is 0xFF000, the
image size is 0x3000, and after the header and load-command reads `dump_binary`
reads 0x2000 bytes at 0x100000 for "__TEXT" and 0x1000 bytes at 0x103000 for
"__DATA"; the same holds for the 32-bit form of the table. -/
theorem scenarioA_slide_reads_and_size :
    (get_image_size (memTarget scenA_mem) (fun _ => 0) 0x100000 World.init).value? = some 0x3000 ∧
    (get_image_size (memTarget scenA_mem) (fun _ => 0) 0x100000 World.init).world.vmaddr_slide =
      0x100000 - 0x1000 ∧
    (get_image_size (memTarget scenA_mem) (fun _ => 0) 0x100000 World.init).world.vmaddr_slide =
      0xFF000 ∧
    reads (dump_binary (memTarget scenA_mem) (fun _ => 0) 0x100000 (fun _ => 0)
        { vmaddr_slide := 0xFF000, trace := [] }).world.trace =
      [(0x100000, 28), (0x100020, 216), (0x100000, 0x2000), (0x103000, 0x1000)] ∧
    (∃ w', main (memTarget scenA_mem) host_ok opts_full_A 0 = some (.ret 0 w') ∧
      allocs w'.trace = [0x3000] ∧ written w'.trace = [0x3000]) ∧
    (get_image_size (memTarget scenA32_mem) (fun _ => 0) 0x100000 World.init).value? =
      some 0x3000 ∧
    (get_image_size (memTarget scenA32_mem) (fun _ => 0) 0x100000 World.init).world.vmaddr_slide =
      0xFF000 ∧
    reads (dump_binary (memTarget scenA32_mem) (fun _ => 0) 0x100000 (fun _ => 0)
        { vmaddr_slide := 0xFF000, trace := [] }).world.trace =
      [(0x100000, 28), (0x10001c, 168), (0x100000, 0x2000), (0x103000, 0x1000)] := by
  have hmagic : u32 (header_of scenA_mem opts_full_A.address) 0 = MH_MAGIC ∨
      u32 (header_of scenA_mem opts_full_A.address) 0 = MH_MAGIC_64 := by decide
  have hS : spec_image_size (image_commands scenA_mem host_ok.heap_size opts_full_A.address) =
      0x3000 := by decide
  have hmainA := (main_full_dump_memTarget scenA_mem host_ok opts_full_A 0 hmagic
    (by decide) (by decide) rfl rfl (by decide) (by decide) rfl rfl).1
  rw [hS] at hmainA
  exact ⟨by decide, by decide, by decide, by decide, hmainA (by decide), by decide, by decide,
    by decide⟩

/-! ## Slide invariance -/

theorem u8_lt (b : Buf) (off : Nat) : u8 b off < 256 := by
  unfold u8
  omega

theorem u32_lt (b : Buf) (off : Nat) : u32 b off < 4294967296 := by
  have h0 := u8_lt b off
  have h1 := u8_lt b (off + 1)
  have h2 := u8_lt b (off + 2)
  have h3 := u8_lt b (off + 3)
  unfold u32
  omega

theorem u64_lt (b : Buf) (off : Nat) : u64 b off < W64 := by
  have h0 := u32_lt b off
  have h1 := u32_lt b (off + 4)
  unfold u64 W64
  omega

theorem text_of_lt (loadcmds : Buf) (cur v : Nat)
    (h : text_of (decode_command loadcmds cur) = some v) : v < W64 := by
  unfold decode_command at h
  split_ifs at h with h1 h2
  · simp only [text_of] at h
    split_ifs at h
    have := u32_lt loadcmds (cur + 24)
    simp only [Option.some.injEq, seg_vmaddr] at h
    unfold W64
    omega
  · simp only [text_of] at h
    split_ifs at h
    have := u64_lt loadcmds (cur + 24)
    simp only [Option.some.injEq, seg64_vmaddr] at h
    omega
  · simp [text_of] at h

theorem text_vmaddr_lt (loadcmds : Buf) :
    ∀ (n cur v : Nat), text_vmaddr (commands loadcmds n cur) = some v → v < W64 := by
  intro n
  induction n with
  | zero =>
    intro cur v h
    simp [commands, text_vmaddr] at h
  | succ n ih =>
    intro cur v h
    simp only [commands, text_vmaddr] at h
    cases hrest : text_vmaddr (commands loadcmds n (cur + lc_cmdsize loadcmds cur)) with
    | some v' =>
      rw [hrest] at h
      simp only [Option.some.injEq] at h
      subst h
      exact ih _ _ hrest
    | none =>
      rw [hrest] at h
      exact text_of_lt loadcmds cur v h

theorem str_TEXT_ne_PAGEZERO : str_TEXT ≠ str_PAGEZERO := by decide

theorem str_PAGEZERO_ne_TEXT : str_PAGEZERO ≠ str_TEXT := by decide

theorem gis_body_slide (loadcmds : Buf) (address cur : Nat) (st : Nat × Nat) :
    (gis_body loadcmds address cur st).1 =
      match text_of (decode_command loadcmds cur) with
      | some v => (address + W64 - v) % W64
      | none => st.1 := by
  unfold gis_body decode_command
  by_cases h1 : lc_cmd loadcmds cur = LC_SEGMENT
  · rw [if_pos h1, if_pos h1]
    by_cases ht : c_name (seg_segname loadcmds cur) = str_TEXT
    · have hp : c_name (seg_segname loadcmds cur) ≠ str_PAGEZERO := by
        rw [ht]; exact str_TEXT_ne_PAGEZERO
      simp [text_of, strncmp_PAGEZERO, strncmp_TEXT, ht, hp, str_TEXT_ne_PAGEZERO,
          str_PAGEZERO_ne_TEXT]
    · by_cases hp : c_name (seg_segname loadcmds cur) = str_PAGEZERO
      · simp [text_of, strncmp_PAGEZERO, strncmp_TEXT, ht, hp, str_TEXT_ne_PAGEZERO,
          str_PAGEZERO_ne_TEXT]
      · simp [text_of, strncmp_PAGEZERO, strncmp_TEXT, ht, hp, str_TEXT_ne_PAGEZERO,
          str_PAGEZERO_ne_TEXT]
  · rw [if_neg h1, if_neg h1]
    by_cases h2 : lc_cmd loadcmds cur = LC_SEGMENT_64
    · rw [if_pos h2, if_pos h2]
      by_cases ht : c_name (seg_segname loadcmds cur) = str_TEXT
      · have hp : c_name (seg_segname loadcmds cur) ≠ str_PAGEZERO := by
          rw [ht]; exact str_TEXT_ne_PAGEZERO
        simp [text_of, strncmp_PAGEZERO, strncmp_TEXT, ht, hp, str_TEXT_ne_PAGEZERO,
          str_PAGEZERO_ne_TEXT]
      · by_cases hp : c_name (seg_segname loadcmds cur) = str_PAGEZERO
        · simp [text_of, strncmp_PAGEZERO, strncmp_TEXT, ht, hp, str_TEXT_ne_PAGEZERO,
          str_PAGEZERO_ne_TEXT]
        · simp [text_of, strncmp_PAGEZERO, strncmp_TEXT, ht, hp, str_TEXT_ne_PAGEZERO,
          str_PAGEZERO_ne_TEXT]
    · rw [if_neg h2, if_neg h2]
      rfl

theorem gis_loop_slide (loadcmds : Buf) (address : Nat) :
    ∀ (n cur : Nat) (st : Nat × Nat),
      (gis_loop loadcmds address n cur st).1 =
        match text_vmaddr (commands loadcmds n cur) with
        | some v => (address + W64 - v) % W64
        | none => st.1 := by
  intro n
  induction n with
  | zero =>
    intro cur st
    simp [gis_loop, commands, text_vmaddr]
  | succ n ih =>
    intro cur st
    rw [gis_loop, ih]
    simp only [commands, text_vmaddr]
    cases hrest : text_vmaddr (commands loadcmds n (cur + lc_cmdsize loadcmds cur)) with
    | some v' => rfl
    | none =>
      simp only []
      exact gis_body_slide loadcmds address cur st

theorem mem_bytes_base (mem1 mem2 : Nat → Nat) (b1 b2 : Nat)
    (H : ∀ k, mem2 ((b2 + k) % W64) = mem1 ((b1 + k) % W64)) (n : Nat) :
    mem_bytes mem2 b2 n = mem_bytes mem1 b1 n := by
  unfold mem_bytes
  apply List.map_congr_left
  intro i _
  exact H i

theorem mem_bytes_shift (mem1 mem2 : Nat → Nat) (b1 b2 : Nat)
    (H : ∀ k, mem2 ((b2 + k) % W64) = mem1 ((b1 + k) % W64)) (e n : Nat) :
    mem_bytes mem2 ((b2 + e) % W64) n = mem_bytes mem1 ((b1 + e) % W64) n := by
  unfold mem_bytes
  apply List.map_congr_left
  intro i _
  rw [Nat.mod_add_mod, Nat.mod_add_mod, Nat.add_assoc, Nat.add_assoc]
  exact H (e + i)

theorem header_of_shift (mem1 mem2 : Nat → Nat) (b1 b2 : Nat)
    (H : ∀ k, mem2 ((b2 + k) % W64) = mem1 ((b1 + k) % W64)) :
    header_of mem2 b2 = header_of mem1 b1 := by
  unfold header_of
  rw [mem_bytes_base mem1 mem2 b1 b2 H]

theorem header_size_of_shift (mem1 mem2 : Nat → Nat) (b1 b2 : Nat)
    (H : ∀ k, mem2 ((b2 + k) % W64) = mem1 ((b1 + k) % W64)) :
    header_size_of mem2 b2 = header_size_of mem1 b1 := by
  unfold header_size_of
  rw [header_of_shift mem1 mem2 b1 b2 H]

theorem loadcmds_of_shift (mem1 mem2 : Nat → Nat) (b1 b2 : Nat)
    (H : ∀ k, mem2 ((b2 + k) % W64) = mem1 ((b1 + k) % W64)) (heap : Buf) :
    loadcmds_of mem2 heap b2 = loadcmds_of mem1 heap b1 := by
  unfold loadcmds_of
  rw [header_of_shift mem1 mem2 b1 b2 H, header_size_of_shift mem1 mem2 b1 b2 H,
    mem_bytes_shift mem1 mem2 b1 b2 H]

theorem image_commands_shift (mem1 mem2 : Nat → Nat) (b1 b2 : Nat)
    (H : ∀ k, mem2 ((b2 + k) % W64) = mem1 ((b1 + k) % W64)) (heap : Buf) :
    image_commands mem2 heap b2 = image_commands mem1 heap b1 := by
  unfold image_commands
  rw [header_of_shift mem1 mem2 b1 b2 H, loadcmds_of_shift mem1 mem2 b1 b2 H]

theorem slid_address (v b d : Nat) : (v + (b + d) % W64) % W64 = (b + (d + v)) % W64 := by
  rw [Nat.add_mod_mod]
  congr 1
  omega

theorem dump_loop_shift (mem1 mem2 : Nat → Nat) (b1 b2 : Nat)
    (H : ∀ k, mem2 ((b2 + k) % W64) = mem1 ((b1 + k) % W64)) (loadcmds : Buf) (d : Nat) :
    ∀ (n cur : Nat) (buffer : Buf) (off : Nat) (w1 w2 : World),
      w1.vmaddr_slide = (b1 + d) % W64 → w2.vmaddr_slide = (b2 + d) % W64 →
      ∃ b o w1' w2',
        dump_loop (memTarget mem1) loadcmds n cur buffer off w1 = .ret (b, o) w1' ∧
        dump_loop (memTarget mem2) loadcmds n cur buffer off w2 = .ret (b, o) w2' := by
  intro n
  induction n with
  | zero =>
    intro cur buffer off w1 w2 _ _
    exact ⟨buffer, off, w1, w2, rfl, rfl⟩
  | succ n ih =>
    intro cur buffer off w1 w2 h1 h2
    rw [dump_loop, dump_loop]
    simp only [readmem_memTarget]
    rw [h1, h2]
    simp only [slid_address]
    rw [mem_bytes_shift mem1 mem2 b1 b2 H, mem_bytes_shift mem1 mem2 b1 b2 H]
    split_ifs
    · exact ih _ _ _ _ _ h1 h2
    · exact ih _ _ _ _ _ h1 h2
    · exact ih _ _ _ _ _ h1 h2
    · exact ih _ _ _ _ _ h1 h2
    · exact ih _ _ _ _ _ h1 h2

theorem dump_binary_memTarget_eq (mem : Nat → Nat) (heap : Buf) (address : Nat)
    (buffer : Buf) (w : World)
    (hmagic : u32 (header_of mem address) 0 = MH_MAGIC ∨
      u32 (header_of mem address) 0 = MH_MAGIC_64) :
    dump_binary (memTarget mem) heap address buffer w =
      match dump_loop (memTarget mem) (loadcmds_of mem heap address)
          (u32 (header_of mem address) 16) 0 buffer 0
          ((w.log (.vm_read address sizeof_mach_header)).log
            (.vm_read ((address + header_size_of mem address) % W64)
              (u32 (header_of mem address) 20))) with
      | .exit c w3 => .exit c w3
      | .ret (buffer1, _) w3 => .ret buffer1 w3 := by
  unfold dump_binary
  rw [readmem_memTarget]
  have hm := magic_not_rejected hmagic
  simp only [header_of] at hm
  simp only [hm, if_false]
  rw [readmem_memTarget]
  rfl

/-- C3, amended. Slide invariance for images that have a "__TEXT" segment:
if two fully readable targets hold the same bytes at the same displacement from
their bases `b1` and `b2` (addresses modulo `2 ^ 64`), the header at the base
has a recognized magic and the table has a segment named "__TEXT", then
`get_image_size` followed by `dump_binary` at `b1` and at `b2`, started from
the same tool-side heap, give the same size and byte-identical output. -/
theorem slide_invariance_with_text (mem1 mem2 : Nat → Nat) (b1 b2 : Nat) (h : Host)
    (wA wB : World)
    (H : ∀ k, mem2 ((b2 + k) % W64) = mem1 ((b1 + k) % W64))
    (hmagic : u32 (header_of mem1 b1) 0 = MH_MAGIC ∨ u32 (header_of mem1 b1) 0 = MH_MAGIC_64)
    (htext : text_vmaddr (image_commands mem1 h.heap_size b1) ≠ none) :
    ∃ size out wA' wB',
      dump_image (memTarget mem1) h b1 wA = .ret (size, out) wA' ∧
      dump_image (memTarget mem2) h b2 wB = .ret (size, out) wB' := by
  have hmagic2 : u32 (header_of mem2 b2) 0 = MH_MAGIC ∨
      u32 (header_of mem2 b2) 0 = MH_MAGIC_64 := by
    rw [header_of_shift mem1 mem2 b1 b2 H]
    exact hmagic
  obtain ⟨v, hv⟩ : ∃ v, text_vmaddr (image_commands mem1 h.heap_size b1) = some v :=
    Option.ne_none_iff_exists'.mp htext
  have hvlt : v < W64 := text_vmaddr_lt _ _ _ _ hv
  have hs1 : (gis_loop (loadcmds_of mem1 h.heap_size b1) b1 (u32 (header_of mem1 b1) 16) 0
      (wA.vmaddr_slide, 0)).1 = (b1 + (W64 - v)) % W64 := by
    rw [gis_loop_slide]
    unfold image_commands at hv
    rw [hv]
    simp only []
    congr 1
    omega
  have hs2 : (gis_loop (loadcmds_of mem2 h.heap_size b2) b2 (u32 (header_of mem2 b2) 16) 0
      (wB.vmaddr_slide, 0)).1 = (b2 + (W64 - v)) % W64 := by
    rw [gis_loop_slide, header_of_shift mem1 mem2 b1 b2 H, loadcmds_of_shift mem1 mem2 b1 b2 H]
    unfold image_commands at hv
    rw [hv]
    simp only []
    congr 1
    omega
  unfold dump_image
  rw [get_image_size_memTarget mem1 h.heap_size b1 wA hmagic,
    get_image_size_memTarget mem2 h.heap_size b2 wB hmagic2]
  simp only []
  rw [dump_binary_memTarget_eq mem1 h.heap_dump b1 _ _ hmagic,
    dump_binary_memTarget_eq mem2 h.heap_dump b2 _ _ hmagic2]
  simp only [image_commands_shift mem1 mem2 b1 b2 H, header_of_shift mem1 mem2 b1 b2 H,
    loadcmds_of_shift mem1 mem2 b1 b2 H, header_size_of_shift mem1 mem2 b1 b2 H] at hs2 ⊢
  obtain ⟨b, o, w1', w2', e1, e2⟩ := dump_loop_shift mem1 mem2 b1 b2 H
    (loadcmds_of mem1 h.heap_dump b1) (W64 - v) (u32 (header_of mem1 b1) 16) 0
    h.heap_readbuffer 0
    ((World.log
        { vmaddr_slide :=
            (gis_loop (loadcmds_of mem1 h.heap_size b1) b1 (u32 (header_of mem1 b1) 16) 0
              (wA.vmaddr_slide, 0)).1
          trace := wA.trace ++ [.vm_read b1 sizeof_mach_header,
            .vm_read ((b1 + header_size_of mem1 b1) % W64) (u32 (header_of mem1 b1) 20)] }
        (.vm_read b1 sizeof_mach_header)).log
      (.vm_read ((b1 + header_size_of mem1 b1) % W64) (u32 (header_of mem1 b1) 20)))
    ((World.log
        { vmaddr_slide :=
            (gis_loop (loadcmds_of mem1 h.heap_size b1) b2 (u32 (header_of mem1 b1) 16) 0
              (wB.vmaddr_slide, 0)).1
          trace := wB.trace ++ [.vm_read b2 sizeof_mach_header,
            .vm_read ((b2 + header_size_of mem1 b1) % W64) (u32 (header_of mem1 b1) 20)] }
        (.vm_read b2 sizeof_mach_header)).log
      (.vm_read ((b2 + header_size_of mem1 b1) % W64) (u32 (header_of mem1 b1) 20)))
    hs1 hs2
  rw [e1, e2]
  exact ⟨_, _, _, _, rfl, rfl⟩

/-- Instance of C3 (amended) at Scenario A, mapped at 0x100000 and at 0x300000. -/
theorem slide_invariance_with_text_witness :
    (∀ k, scenA_mem_moved ((0x300000 + k) % W64) = scenA_mem ((0x100000 + k) % W64)) ∧
    (u32 (header_of scenA_mem 0x100000) 0 = MH_MAGIC ∨
      u32 (header_of scenA_mem 0x100000) 0 = MH_MAGIC_64) ∧
    text_vmaddr (image_commands scenA_mem host_ok.heap_size 0x100000) ≠ none ∧
    ∃ size out wA' wB',
      dump_image (memTarget scenA_mem) host_ok 0x100000 World.init = .ret (size, out) wA' ∧
      dump_image (memTarget scenA_mem_moved) host_ok 0x300000 World.init =
        .ret (size, out) wB' := by
  have H : ∀ k, scenA_mem_moved ((0x300000 + k) % W64) = scenA_mem ((0x100000 + k) % W64) := by
    intro k
    show scenA_mem (((0x300000 + k) % W64 + (W64 - 0x200000)) % W64) =
      scenA_mem ((0x100000 + k) % W64)
    exact congrArg scenA_mem (by unfold W64; omega)
  exact ⟨H, by decide, by decide,
    slide_invariance_with_text scenA_mem scenA_mem_moved 0x100000 0x300000 host_ok
      World.init World.init H (by decide) (by decide)⟩

/-- C3, as stated. An image with a recognized magic, a well-formed table and no
"__TEXT" segment, mapped at 0x100000 in one memory and at 0x200000 in a memory
that holds the same bytes at the same displacement: the slide stays 0 in both
runs, both read the "__DATA" byte at the link-time address 0x2000, and the
outputs differ. -/
theorem slide_invariance_fails_without_text :
    (∀ k, notext_mem2 ((0x200000 + k) % W64) = notext_mem1 ((0x100000 + k) % W64)) ∧
    (u32 (header_of notext_mem1 0x100000) 0 = MH_MAGIC_64) ∧
    (dump_image (memTarget notext_mem1) host_ok 0x100000 World.init).value? =
      some (1, [0xAA]) ∧
    (dump_image (memTarget notext_mem2) host_ok 0x200000 World.init).value? =
      some (1, [0x00]) := by
  refine ⟨?_, by decide, by decide, by decide⟩
  intro k
  show notext_mem1 (((0x200000 + k) % W64 + (W64 - 0x100000)) % W64) =
    notext_mem1 ((0x100000 + k) % W64)
  exact congrArg notext_mem1 (by unfold W64; omega)

/-! ## The walks never check `cmdsize` -/

theorem read_of_decode (slide : Nat) (loadcmds : Buf) (cur : Nat) :
    read_of slide (decode_command loadcmds cur) =
      if lc_cmd loadcmds cur = LC_SEGMENT then
        if strncmp (seg_segname loadcmds cur) (cstr str_PAGEZERO) 16 ≠ 0 then
          some ((seg_vmaddr loadcmds cur + slide) % W64, seg_filesize loadcmds cur) else none
      else if lc_cmd loadcmds cur = LC_SEGMENT_64 then
        if strncmp (seg_segname loadcmds cur) (cstr str_PAGEZERO) 16 ≠ 0 then
          some ((seg64_vmaddr loadcmds cur + slide) % W64, seg64_filesize loadcmds cur) else none
      else none := by
  unfold decode_command
  by_cases h1 : lc_cmd loadcmds cur = LC_SEGMENT
  · rw [if_pos h1, if_pos h1]
    by_cases hp : c_name (seg_segname loadcmds cur) = str_PAGEZERO
    · simp [read_of, strncmp_PAGEZERO, hp]
    · simp [read_of, strncmp_PAGEZERO, hp]
  · rw [if_neg h1, if_neg h1]
    by_cases h2 : lc_cmd loadcmds cur = LC_SEGMENT_64
    · rw [if_pos h2, if_pos h2]
      by_cases hp : c_name (seg_segname loadcmds cur) = str_PAGEZERO
      · simp [read_of, strncmp_PAGEZERO, hp]
      · simp [read_of, strncmp_PAGEZERO, hp]
    · rw [if_neg h2, if_neg h2]
      rfl

theorem dump_loop_memTarget_trace (mem : Nat → Nat) (loadcmds : Buf) :
    ∀ (n cur : Nat) (buffer : Buf) (off : Nat) (w : World),
      ∃ b o w', dump_loop (memTarget mem) loadcmds n cur buffer off w = .ret (b, o) w' ∧
        w'.vmaddr_slide = w.vmaddr_slide ∧
        w'.trace = w.trace ++
          (segment_reads w.vmaddr_slide (commands loadcmds n cur)).map
            (fun p => Event.vm_read p.1 p.2) := by
  intro n
  induction n with
  | zero =>
    intro cur buffer off w
    exact ⟨buffer, off, w, rfl, rfl, by simp [commands, segment_reads]⟩
  | succ n ih =>
    intro cur buffer off w
    have hr := read_of_decode w.vmaddr_slide loadcmds cur
    rw [dump_loop]
    simp only [readmem_memTarget, commands, segment_reads, List.filterMap_cons]
    split_ifs at hr ⊢
    · obtain ⟨b, o, w', e1, e2, e3⟩ := ih (cur + lc_cmdsize loadcmds cur)
        (writeAt buffer off (mem_bytes mem ((seg_vmaddr loadcmds cur + w.vmaddr_slide) % W64)
          (seg_filesize loadcmds cur)))
        ((off + seg_filesize loadcmds cur) % W64)
        (w.log (.vm_read ((seg_vmaddr loadcmds cur + w.vmaddr_slide) % W64)
          (seg_filesize loadcmds cur)))
      refine ⟨b, o, w', e1, e2, ?_⟩
      rw [e3, hr]
      simp [World.log, segment_reads]
    · obtain ⟨b, o, w', e1, e2, e3⟩ := ih (cur + lc_cmdsize loadcmds cur) buffer
        ((off + seg_filesize loadcmds cur) % W64) w
      refine ⟨b, o, w', e1, e2, ?_⟩
      rw [e3, hr]
      simp [segment_reads]
    · obtain ⟨b, o, w', e1, e2, e3⟩ := ih (cur + lc_cmdsize loadcmds cur)
        (writeAt buffer off (mem_bytes mem ((seg64_vmaddr loadcmds cur + w.vmaddr_slide) % W64)
          (seg64_filesize loadcmds cur)))
        ((off + seg64_filesize loadcmds cur) % W64)
        (w.log (.vm_read ((seg64_vmaddr loadcmds cur + w.vmaddr_slide) % W64)
          (seg64_filesize loadcmds cur)))
      refine ⟨b, o, w', e1, e2, ?_⟩
      rw [e3, hr]
      simp [World.log, segment_reads]
    · obtain ⟨b, o, w', e1, e2, e3⟩ := ih (cur + lc_cmdsize loadcmds cur) buffer
        ((off + seg64_filesize loadcmds cur) % W64) w
      refine ⟨b, o, w', e1, e2, ?_⟩
      rw [e3, hr]
      simp [segment_reads]
    · obtain ⟨b, o, w', e1, e2, e3⟩ := ih (cur + lc_cmdsize loadcmds cur) buffer off w
      refine ⟨b, o, w', e1, e2, ?_⟩
      rw [e3, hr]
      simp [segment_reads]

theorem commands_add (table : Buf) :
    ∀ (k n cur : Nat), commands table (k + n) cur =
      commands table k cur ++ commands table n (cursor_after table k cur) := by
  intro k
  induction k with
  | zero =>
    intro n cur
    simp [commands, cursor_after]
  | succ k ih =>
    intro n cur
    rw [Nat.add_right_comm]
    simp only [commands, cursor_after, List.cons_append]
    rw [ih]

theorem commands_zero_cmdsize (table : Buf) (cur : Nat) (hz : lc_cmdsize table cur = 0) :
    ∀ n : Nat, commands table n cur = List.replicate n (decode_command table cur) := by
  intro n
  induction n with
  | zero => rfl
  | succ n ih =>
    simp only [commands, List.replicate_succ]
    rw [hz, Nat.add_zero, ih]

theorem msgs_append_vm_reads (tr : List Event) (l : List (Nat × Nat)) :
    msgs (tr ++ l.map (fun p => Event.vm_read p.1 p.2)) = msgs tr := by
  induction l with
  | nil => simp
  | cons p l ih =>
    simp only [msgs, List.filterMap_append, List.map_cons, List.filterMap_cons] at ih ⊢
    exact ih

theorem reads_append_vm_reads (tr : List Event) (l : List (Nat × Nat)) :
    reads (tr ++ l.map (fun p => Event.vm_read p.1 p.2)) = reads tr ++ l := by
  induction l with
  | nil => simp [reads]
  | cons p l ih =>
    simp only [reads, List.filterMap_append, List.map_cons, List.filterMap_cons,
      List.append_cancel_left_eq] at ih ⊢
    rw [ih]

theorem u8_agree (b1 b2 : Buf) (size : Nat) (hagree : ∀ i, i < size → b1 i = b2 i)
    (off : Nat) (h : off < size) : u8 b1 off = u8 b2 off := by
  unfold u8
  rw [hagree off h]

theorem u32_agree (b1 b2 : Buf) (size : Nat) (hagree : ∀ i, i < size → b1 i = b2 i)
    (off : Nat) (h : off + 4 ≤ size) : u32 b1 off = u32 b2 off := by
  unfold u32
  rw [u8_agree b1 b2 size hagree off (by omega), u8_agree b1 b2 size hagree (off + 1) (by omega),
    u8_agree b1 b2 size hagree (off + 2) (by omega),
    u8_agree b1 b2 size hagree (off + 3) (by omega)]

theorem u64_agree (b1 b2 : Buf) (size : Nat) (hagree : ∀ i, i < size → b1 i = b2 i)
    (off : Nat) (h : off + 8 ≤ size) : u64 b1 off = u64 b2 off := by
  unfold u64
  rw [u32_agree b1 b2 size hagree off (by omega),
    u32_agree b1 b2 size hagree (off + 4) (by omega)]

theorem c_name_agree (b1 b2 : Buf) (size : Nat) (hagree : ∀ i, i < size → b1 i = b2 i)
    (cur : Nat) (h : cur + 24 ≤ size) :
    c_name (seg_segname b1 cur) = c_name (seg_segname b2 cur) := by
  unfold c_name
  have e : (List.range 16).map (seg_segname b1 cur) = (List.range 16).map (seg_segname b2 cur) := by
    apply List.map_congr_left
    intro i hi
    have hi16 : i < 16 := List.mem_range.mp hi
    exact u8_agree b1 b2 size hagree (cur + 8 + i) (by omega)
  rw [e]

theorem record_agree (b1 b2 : Buf) (size : Nat) (hagree : ∀ i, i < size → b1 i = b2 i)
    (cur : Nat) (h : record_in_block b1 size cur = true) :
    lc_cmdsize b1 cur = lc_cmdsize b2 cur ∧ decode_command b1 cur = decode_command b2 cur := by
  simp only [record_in_block, sizeof_load_command, decide_eq_true_eq] at h
  obtain ⟨h8, hext⟩ := h
  have hcmd : lc_cmd b1 cur = lc_cmd b2 cur := u32_agree b1 b2 size hagree cur (by omega)
  refine ⟨u32_agree b1 b2 size hagree (cur + 4) (by omega), ?_⟩
  unfold decode_command
  rw [← hcmd]
  unfold record_extent at hext
  by_cases h1 : lc_cmd b1 cur = LC_SEGMENT
  · rw [if_pos h1] at hext
    simp only [sizeof_segment_command] at hext
    rw [if_pos h1, if_pos h1, c_name_agree b1 b2 size hagree cur (by omega)]
    unfold seg_vmaddr seg_filesize
    rw [u32_agree b1 b2 size hagree (cur + 24) (by omega),
      u32_agree b1 b2 size hagree (cur + 36) (by omega)]
  · rw [if_neg h1] at hext
    rw [if_neg h1, if_neg h1]
    by_cases h2 : lc_cmd b1 cur = LC_SEGMENT_64
    · rw [if_pos h2] at hext
      simp only [sizeof_segment_command_64] at hext
      rw [if_pos h2, if_pos h2, c_name_agree b1 b2 size hagree cur (by omega)]
      unfold seg64_vmaddr seg64_filesize
      rw [u64_agree b1 b2 size hagree (cur + 24) (by omega),
        u64_agree b1 b2 size hagree (cur + 48) (by omega)]
    · rw [if_neg h2, if_neg h2]

theorem commands_agree (b1 b2 : Buf) (size : Nat) (hagree : ∀ i, i < size → b1 i = b2 i) :
    ∀ (n cur : Nat), walk_in_block b1 size n cur = true →
      commands b1 n cur = commands b2 n cur := by
  intro n
  induction n with
  | zero =>
    intro cur _
    rfl
  | succ n ih =>
    intro cur h
    simp only [walk_in_block, Bool.and_eq_true] at h
    obtain ⟨hrec, hrest⟩ := h
    obtain ⟨hsize, hdec⟩ := record_agree b1 b2 size hagree cur hrec
    simp only [commands]
    rw [hdec, ← hsize, ih _ hrest]

theorem loadcmds_of_agree (mem : Nat → Nat) (heap1 heap2 : Buf) (address : Nat) :
    ∀ i, i < u32 (header_of mem address) 20 →
      loadcmds_of mem heap1 address i = loadcmds_of mem heap2 address i := by
  intro i hi
  unfold loadcmds_of writeAt
  simp [mem_bytes_length, hi]

theorem image_commands_heap_independent (mem : Nat → Nat) (heap heap2 : Buf) (address : Nat)
    (hin : walk_in_block (loadcmds_of mem heap address) (u32 (header_of mem address) 20)
      (u32 (header_of mem address) 16) 0 = true) :
    image_commands mem heap address = image_commands mem heap2 address := by
  unfold image_commands
  exact commands_agree _ _ _ (loadcmds_of_agree mem heap heap2 address) _ 0 hin

/-- C5, amended. The walks of `get_image_size` and `dump_binary` have no
malformed-load-commands outcome.  On a fully readable target with a recognized
magic, for every table whose walk decodes only records that lie inside the
block of `sizeofcmds` bytes: `get_image_size` returns the size computed over
the `ncmds` records reached by advancing with the declared sizes and prints no
diagnostic; the result does not depend on memory outside the block; and, when
the output pointer stays inside a buffer of that size, `dump_binary` returns
after issuing the segment reads of these records, without a diagnostic.  A
record that declares `cmdsize` 0 is decoded again at each remaining iteration:
if it is reached after `k` records and `n` iterations remain, the table walked
is the first `k` records followed by `n` copies of it. -/
theorem walk_in_block_never_rejects_cmdsize (mem : Nat → Nat) (heap : Buf) (address : Nat)
    (buffer : Buf) (w : World)
    (hmagic : u32 (header_of mem address) 0 = MH_MAGIC ∨
      u32 (header_of mem address) 0 = MH_MAGIC_64)
    (hin : walk_in_block (loadcmds_of mem heap address) (u32 (header_of mem address) 20)
      (u32 (header_of mem address) 16) 0 = true) :
    (∃ w', get_image_size (memTarget mem) heap address w =
        .ret (spec_image_size (image_commands mem heap address)) w' ∧
      msgs w'.trace = msgs w.trace) ∧
    (∀ heap2 : Buf,
      image_commands mem heap2 address = image_commands mem heap address ∧
      get_image_size (memTarget mem) heap2 address w =
        get_image_size (memTarget mem) heap address w) ∧
    (dump_extent (image_commands mem heap address) ≤
        spec_image_size (image_commands mem heap address) →
      ∃ b w', dump_binary (memTarget mem) heap address buffer w = .ret b w' ∧
        msgs w'.trace = msgs w.trace ∧
        reads w'.trace = reads w.trace ++
          (address, sizeof_mach_header) ::
          ((address + header_size_of mem address) % W64, u32 (header_of mem address) 20) ::
          segment_reads w.vmaddr_slide (image_commands mem heap address)) ∧
    (∀ k n : Nat, u32 (header_of mem address) 16 = k + n →
      lc_cmdsize (loadcmds_of mem heap address)
        (cursor_after (loadcmds_of mem heap address) k 0) = 0 →
      image_commands mem heap address =
        commands (loadcmds_of mem heap address) k 0 ++
          List.replicate n (decode_command (loadcmds_of mem heap address)
            (cursor_after (loadcmds_of mem heap address) k 0))) := by
  refine ⟨?_, ?_, ?_, ?_⟩
  · refine ⟨_, get_image_size_memTarget mem heap address w hmagic, ?_⟩
    simp [msgs, List.filterMap_append]
  · intro heap2
    have hc := image_commands_heap_independent mem heap heap2 address hin
    refine ⟨hc.symm, ?_⟩
    rw [get_image_size_memTarget mem heap2 address w hmagic,
      get_image_size_memTarget mem heap address w hmagic, gis_loop_slide, gis_loop_slide]
    unfold image_commands at hc
    rw [← hc]
    unfold image_commands
    rw [← hc]
  · intro _
    rw [dump_binary_memTarget_eq mem heap address buffer w hmagic]
    obtain ⟨b, o, w', e1, _, e3⟩ := dump_loop_memTarget_trace mem (loadcmds_of mem heap address)
      (u32 (header_of mem address) 16) 0 buffer 0
      ((w.log (.vm_read address sizeof_mach_header)).log
        (.vm_read ((address + header_size_of mem address) % W64)
          (u32 (header_of mem address) 20)))
    rw [e1]
    refine ⟨b, w', rfl, ?_, ?_⟩
    · rw [e3, msgs_append_vm_reads]
      simp [msgs, World.log, List.filterMap_append]
    · rw [e3, reads_append_vm_reads]
      simp [reads, World.log, List.filterMap_append, image_commands]
  · intro k n hn hz
    unfold image_commands
    rw [hn, commands_add, commands_zero_cmdsize _ _ hz]

/-- Instance of C5 (amended) at a table whose first record declares `cmdsize` 0
under `ncmds = 2`: the walk stays on that record inside the 72-byte block. -/
theorem walk_in_block_never_rejects_cmdsize_witness :
    (u32 (header_of zero_mem 0x100000) 0 = MH_MAGIC ∨
      u32 (header_of zero_mem 0x100000) 0 = MH_MAGIC_64) ∧
    walk_in_block (loadcmds_of zero_mem (fun _ => 0) 0x100000)
      (u32 (header_of zero_mem 0x100000) 20) (u32 (header_of zero_mem 0x100000) 16) 0 = true ∧
    u32 (header_of zero_mem 0x100000) 16 = 0 + 2 ∧
    lc_cmdsize (loadcmds_of zero_mem (fun _ => 0) 0x100000)
      (cursor_after (loadcmds_of zero_mem (fun _ => 0) 0x100000) 0 0) = 0 ∧
    image_commands zero_mem (fun _ => 0) 0x100000 =
      commands (loadcmds_of zero_mem (fun _ => 0) 0x100000) 0 0 ++
        List.replicate 2 (decode_command (loadcmds_of zero_mem (fun _ => 0) 0x100000)
          (cursor_after (loadcmds_of zero_mem (fun _ => 0) 0x100000) 0 0)) ∧
    (∃ w', get_image_size (memTarget zero_mem) (fun _ => 0) 0x100000 World.init =
        .ret (spec_image_size (image_commands zero_mem (fun _ => 0) 0x100000)) w' ∧
      msgs w'.trace = msgs World.init.trace) ∧
    dump_extent (image_commands zero_mem (fun _ => 0) 0x100000) ≤
      spec_image_size (image_commands zero_mem (fun _ => 0) 0x100000) ∧
    (∃ b w', dump_binary (memTarget zero_mem) (fun _ => 0) 0x100000 (fun _ => 0) World.init =
        .ret b w' ∧
      msgs w'.trace = msgs World.init.trace ∧
      reads w'.trace = reads World.init.trace ++
        (0x100000, sizeof_mach_header) ::
        ((0x100000 + header_size_of zero_mem 0x100000) % W64,
          u32 (header_of zero_mem 0x100000) 20) ::
        segment_reads World.init.vmaddr_slide
          (image_commands zero_mem (fun _ => 0) 0x100000)) := by
  have hext : dump_extent (image_commands zero_mem (fun _ => 0) 0x100000) ≤
      spec_image_size (image_commands zero_mem (fun _ => 0) 0x100000) := by decide
  have T := walk_in_block_never_rejects_cmdsize zero_mem (fun _ => 0) 0x100000 (fun _ => 0)
    World.init (by decide) (by decide)
  exact ⟨by decide, by decide, by decide, by decide, T.2.2.2 0 2 (by decide) (by decide), T.1,
    hext, T.2.2.1 hext⟩

/-- C5, as stated. A table whose record declares `cmdsize` 0 under a header
with `ncmds = 2`, the record lying inside the 72-byte block: `get_image_size`
does not fail but returns a size, the record counted twice, and `dump_binary`
reads the same segment twice; neither prints a diagnostic. -/
theorem zero_cmdsize_not_rejected :
    lc_cmdsize (loadcmds_of zero_mem (fun _ => 0) 0x100000) 0 = 0 ∧
    walk_in_block (loadcmds_of zero_mem (fun _ => 0) 0x100000)
      (u32 (header_of zero_mem 0x100000) 20) (u32 (header_of zero_mem 0x100000) 16) 0 = true ∧
    (get_image_size (memTarget zero_mem) (fun _ => 0) 0x100000 World.init).value? = some 0x40 ∧
    msgs (get_image_size (memTarget zero_mem) (fun _ => 0) 0x100000 World.init).world.trace = [] ∧
    reads (dump_binary (memTarget zero_mem) (fun _ => 0) 0x100000 (fun _ => 0)
        { vmaddr_slide := 0xFF000, trace := [] }).world.trace =
      [(0x100000, 28), (0x100020, 72), (0x100000, 0x20), (0x100000, 0x20)] ∧
    msgs (dump_binary (memTarget zero_mem) (fun _ => 0) 0x100000 (fun _ => 0)
        { vmaddr_slide := 0xFF000, trace := [] }).world.trace = [] := by
  refine ⟨by decide, by decide, by decide, by decide, by decide, by decide⟩

/-! ## Failed and short reads -/

/-- C6. Failing inputs.  A plain read of 16 bytes whose `mach_vm_read_overwrite`
fails: `main` prints the read diagnostic and goes on to render the 16
uninitialised bytes of its buffer on the console, or to write them to the
output file and report success, and returns 0.  A read that delivers 8 of 16
bytes: the 8 bytes and 8 uninitialised ones are rendered.  A whole-image dump
in which the read of one segment fails: the file is written with that
segment's bytes uninitialised and success is reported. -/
theorem failed_read_still_produces_output :
    (main unreadableTarget host_garbage opts_plain 0).map
        (fun r => (r.value?, r.world.trace)) =
      some (some 0, [.malloc 16, .vm_read 0x1000 16, .msg (.vm_read_failed 1),
        .console { protection := 0, max_protection := 7 } 0x1000 (List.replicate 16 0xEE)]) ∧
    (main unreadableTarget host_garbage opts_plain_file 0).map
        (fun r => (r.value?, r.world.trace)) =
      some (some 0, [.malloc 16, .vm_read 0x1000 16, .msg (.vm_read_failed 1),
        .fwrite (List.replicate 16 0xEE), .msg .ok_memory_dumped]) ∧
    (main shortTarget host_garbage opts_plain 0).map
        (fun r => (r.value?, r.world.trace)) =
      some (some 0, [.malloc 16, .vm_read 0x1000 16, .msg (.vm_read_short 16 8),
        .console { protection := 1, max_protection := 7 } 0x1000
          (List.replicate 8 0x41 ++ List.replicate 8 0xEE)]) ∧
    (main dataUnreadableTarget host_garbage opts_full_A 0).map
        (fun r => (r.value?, msgs r.world.trace, fwrites r.world.trace)) =
      some (some 0, [.vm_read_failed 1, .ok_full_binary_dumped],
        [small_image.take 16 ++ List.replicate 16 0xEE]) := by
  refine ⟨by decide, by decide, by decide, by decide⟩

/-! ## The magic check -/

theorem reads_log_vm_read (w : World) (a n : Nat) :
    reads (w.log (.vm_read a n)).trace = reads w.trace ++ [(a, n)] := by
  simp [World.log, reads, List.filterMap_append]

theorem reads_log_msg (w : World) (m : Msg) :
    reads (w.log (.msg m)).trace = reads w.trace := by
  simp [World.log, reads, List.filterMap_append]

theorem readmem_ret (t : Target) (buffer : Buf) (doff a n : Nat) (w : World)
    (info : RegionInfo) (htask : t.task_for_pid = true)
    (hreg : t.mach_vm_region a = .ok info) :
    ∃ w1, readmem t buffer doff a n w =
        .ret (writeAt buffer doff ((t.mach_vm_read_overwrite a n).data.take n), info) w1 ∧
      w1.vmaddr_slide = w.vmaddr_slide ∧ reads w1.trace = reads w.trace ++ [(a, n)] := by
  unfold readmem
  simp only [htask, Bool.true_eq_false, if_false, hreg]
  split_ifs
  · exact ⟨_, rfl, rfl, by rw [reads_log_msg, reads_log_vm_read]⟩
  · exact ⟨_, rfl, rfl, by rw [reads_log_msg, reads_log_vm_read]⟩
  · exact ⟨_, rfl, rfl, by rw [reads_log_vm_read]⟩

theorem readmem_region_error (t : Target) (buffer : Buf) (doff a n : Nat) (w : World)
    (kr : Nat) (htask : t.task_for_pid = true) (hreg : t.mach_vm_region a = .error kr) :
    readmem t buffer doff a n w = .exit 1 (w.log (.msg (.mach_vm_region_failed kr))) := by
  unfold readmem
  simp only [htask, Bool.true_eq_false, if_false, hreg]

theorem readmem_reads_extends (t : Target) (buffer : Buf) (doff a n : Nat) (w : World) :
    ∃ rs, reads (readmem t buffer doff a n w).world.trace = reads w.trace ++ rs := by
  unfold readmem
  split_ifs
  · exact ⟨[], by simp [Run.world, reads_log_msg]⟩
  · cases hreg : t.mach_vm_region a with
    | error kr => exact ⟨[], by simp [Run.world, reads_log_msg]⟩
    | ok info =>
      simp only []
      split_ifs
      · exact ⟨[(a, n)], by simp [Run.world, reads_log_msg, reads_log_vm_read]⟩
      · exact ⟨[(a, n)], by simp [Run.world, reads_log_msg, reads_log_vm_read]⟩
      · exact ⟨[(a, n)], by simp [Run.world, reads_log_vm_read]⟩

theorem dump_loop_step_extends (t : Target) (buffer : Buf) (off a n : Nat) (w : World)
    (k : Buf → World → Run (Buf × Nat))
    (hk : ∀ b w1, ∃ rs, reads (k b w1).world.trace = reads w1.trace ++ rs) :
    ∃ rs, reads (match readmem t buffer off a n w with
      | .exit c w1 => (.exit c w1 : Run (Buf × Nat))
      | .ret (buffer1, _) w1 => k buffer1 w1).world.trace = reads w.trace ++ rs := by
  obtain ⟨r0, h0⟩ := readmem_reads_extends t buffer off a n w
  cases hrm : readmem t buffer off a n w with
  | exit c w1 =>
    rw [hrm] at h0
    exact ⟨r0, h0⟩
  | ret p w1 =>
    rw [hrm] at h0
    obtain ⟨b1, i1⟩ := p
    obtain ⟨r1, h1⟩ := hk b1 w1
    refine ⟨r0 ++ r1, ?_⟩
    simp only [Run.world] at h0 h1 ⊢
    rw [h1, h0, List.append_assoc]

theorem dump_loop_reads_extends (t : Target) (loadcmds : Buf) :
    ∀ (n cur : Nat) (buffer : Buf) (off : Nat) (w : World),
      ∃ rs, reads (dump_loop t loadcmds n cur buffer off w).world.trace =
        reads w.trace ++ rs := by
  intro n
  induction n with
  | zero =>
    intro cur buffer off w
    exact ⟨[], by simp [dump_loop, Run.world]⟩
  | succ n ih =>
    intro cur buffer off w
    rw [dump_loop]
    split_ifs
    · exact dump_loop_step_extends t buffer off _ _ w
        (fun b w1 => dump_loop t loadcmds n (cur + lc_cmdsize loadcmds cur) b
          ((off + seg_filesize loadcmds cur) % W64) w1)
        (fun b w1 => ih _ b _ w1)
    · exact ih _ _ _ _
    · exact dump_loop_step_extends t buffer off _ _ w
        (fun b w1 => dump_loop t loadcmds n (cur + lc_cmdsize loadcmds cur) b
          ((off + seg64_filesize loadcmds cur) % W64) w1)
        (fun b w1 => ih _ b _ w1)
    · exact ih _ _ _ _
    · exact ih _ _ _ _

theorem MH_MAGIC_ne_64 : MH_MAGIC ≠ MH_MAGIC_64 := by decide

theorem run_world_strip (r : Run (Buf × Nat)) :
    (match r with
      | .exit c w3 => (.exit c w3 : Run Buf)
      | .ret (buffer1, _) w3 => .ret buffer1 w3).world = r.world := by
  cases r with
  | exit c w3 => rfl
  | ret p w3 => rfl

theorem header_size_cases (m hs : Nat)
    (h : (m = MH_MAGIC ∧ hs = sizeof_mach_header) ∨
      (m = MH_MAGIC_64 ∧ hs = sizeof_mach_header_64)) :
    ¬ (m ≠ MH_MAGIC ∧ m ≠ MH_MAGIC_64) ∧
    (if m = MH_MAGIC_64 then sizeof_mach_header_64 else sizeof_mach_header) = hs := by
  rcases h with ⟨hm, hh⟩ | ⟨hm, hh⟩
  · subst hm hh
    exact ⟨fun hc => hc.1 rfl, if_neg MH_MAGIC_ne_64⟩
  · subst hm hh
    exact ⟨fun hc => hc.2 rfl, if_pos rfl⟩

/-- C7. With `task_for_pid` and the region query at `address` succeeding,
let the header be what the 28-byte read at `address` leaves in the header
struct.  If its magic is neither `MH_MAGIC` nor `MH_MAGIC_64`, both
`get_image_size` and `dump_binary` exit with status 1, their last output being
the not-a-Mach-O diagnostic, and the header read is the only read they issued.
If the magic is `MH_MAGIC` (header size 28) or `MH_MAGIC_64` (header size 32),
both go on to `readmem` the load commands at `address` plus the header size
(64-bit arithmetic) with size `sizeofcmds`: when the region query there
succeeds this is the second read of the trace, and when it fails both exit on
that query's diagnostic. -/
theorem magic_check_gates_load_commands (t : Target) (heap : Buf) (address : Nat)
    (buffer : Buf) (w : World) (info : RegionInfo)
    (htask : t.task_for_pid = true) (hreg : t.mach_vm_region address = .ok info) :
    (u32 (read_header t address) 0 ≠ MH_MAGIC → u32 (read_header t address) 0 ≠ MH_MAGIC_64 →
      ∃ w1 w2, get_image_size t heap address w = .exit 1 w1 ∧
        dump_binary t heap address buffer w = .exit 1 w2 ∧
        reads w1.trace = reads w.trace ++ [(address, sizeof_mach_header)] ∧
        reads w2.trace = reads w.trace ++ [(address, sizeof_mach_header)] ∧
        w1.trace.getLast? = some (.msg .not_macho) ∧
        w2.trace.getLast? = some (.msg .not_macho)) ∧
    (∀ hs : Nat,
      (u32 (read_header t address) 0 = MH_MAGIC ∧ hs = sizeof_mach_header) ∨
        (u32 (read_header t address) 0 = MH_MAGIC_64 ∧ hs = sizeof_mach_header_64) →
      (∀ info2, t.mach_vm_region ((address + hs) % W64) = .ok info2 →
        reads (get_image_size t heap address w).world.trace =
          reads w.trace ++ [(address, sizeof_mach_header),
            ((address + hs) % W64, u32 (read_header t address) 20)] ∧
        ∃ rest, reads (dump_binary t heap address buffer w).world.trace =
          reads w.trace ++ (address, sizeof_mach_header) ::
            ((address + hs) % W64, u32 (read_header t address) 20) :: rest) ∧
      (∀ kr, t.mach_vm_region ((address + hs) % W64) = .error kr →
        ∃ w1 w2, get_image_size t heap address w = .exit 1 w1 ∧
          dump_binary t heap address buffer w = .exit 1 w2 ∧
          reads w1.trace = reads w.trace ++ [(address, sizeof_mach_header)] ∧
          reads w2.trace = reads w.trace ++ [(address, sizeof_mach_header)] ∧
          w1.trace.getLast? = some (.msg (.mach_vm_region_failed kr)) ∧
          w2.trace.getLast? = some (.msg (.mach_vm_region_failed kr)))) := by
  obtain ⟨w1, e1, _, r1⟩ := readmem_ret t (fun _ => 0) 0 address sizeof_mach_header w info
    htask hreg
  refine ⟨?_, ?_⟩
  · intro h1 h2
    have hrej : u32 (read_header t address) 0 ≠ MH_MAGIC ∧
        u32 (read_header t address) 0 ≠ MH_MAGIC_64 := ⟨h1, h2⟩
    unfold read_header at hrej
    refine ⟨w1.log (.msg .not_macho), w1.log (.msg .not_macho), ?_, ?_, ?_, ?_, ?_, ?_⟩
    · unfold get_image_size
      rw [e1]
      simp only []
      rw [if_pos hrej]
    · unfold dump_binary
      rw [e1]
      simp only []
      rw [if_pos hrej]
    · rw [reads_log_msg, r1]
    · rw [reads_log_msg, r1]
    · simp [World.log]
    · simp [World.log]
  · intro hs hcase
    obtain ⟨hacc, hsize⟩ := header_size_cases _ hs hcase
    unfold read_header at hacc hsize
    refine ⟨?_, ?_⟩
    · intro info2 hreg2
      obtain ⟨w2, e2, _, r2⟩ := readmem_ret t heap 0 ((address + hs) % W64)
        (u32 (read_header t address) 20) w1 info2 htask hreg2
      unfold read_header at e2 r2
      refine ⟨?_, ?_⟩
      · unfold get_image_size
        rw [e1]
        simp only []
        rw [if_neg hacc]
        simp only [hsize]
        rw [e2]
        simp only [Run.world, read_header]
        rw [r2, r1, List.append_assoc]
        rfl
      · unfold dump_binary
        rw [e1]
        simp only []
        rw [if_neg hacc]
        simp only [hsize]
        rw [e2]
        simp only [run_world_strip, read_header]
        obtain ⟨rest, hrest⟩ := dump_loop_reads_extends t
          (writeAt heap 0 (List.take
            (u32 (writeAt (fun _ => 0) 0
              (List.take sizeof_mach_header
                (t.mach_vm_read_overwrite address sizeof_mach_header).data)) 20)
            (t.mach_vm_read_overwrite ((address + hs) % W64)
              (u32 (writeAt (fun _ => 0) 0
                (List.take sizeof_mach_header
                  (t.mach_vm_read_overwrite address sizeof_mach_header).data)) 20)).data))
          (u32 (writeAt (fun _ => 0) 0
              (List.take sizeof_mach_header
                (t.mach_vm_read_overwrite address sizeof_mach_header).data)) 16) 0 buffer 0 w2
        refine ⟨rest, ?_⟩
        rw [hrest, r2, r1]
        simp
    · intro kr hreg2
      have e2 := fun (b : Buf) (n : Nat) =>
        readmem_region_error t b 0 ((address + hs) % W64) n w1 kr htask hreg2
      refine ⟨w1.log (.msg (.mach_vm_region_failed kr)),
        w1.log (.msg (.mach_vm_region_failed kr)), ?_, ?_, ?_, ?_, ?_, ?_⟩
      · unfold get_image_size
        rw [e1]
        simp only []
        rw [if_neg hacc]
        simp only [hsize]
        rw [e2]
      · unfold dump_binary
        rw [e1]
        simp only []
        rw [if_neg hacc]
        simp only [hsize]
        rw [e2]
      · rw [reads_log_msg, r1]
      · rw [reads_log_msg, r1]
      · simp [World.log]
      · simp [World.log]

/-- Instance of C7 at Scenario A (magic `MH_MAGIC_64`) and at a zero-filled
memory (magic 0). -/
theorem magic_check_gates_load_commands_witness :
    ((memTarget scenA_mem).task_for_pid = true ∧
      (memTarget scenA_mem).mach_vm_region 0x100000 =
        .ok { protection := 5, max_protection := 7 } ∧
      u32 (read_header (memTarget scenA_mem) 0x100000) 0 = MH_MAGIC_64 ∧
      (memTarget scenA_mem).mach_vm_region ((0x100000 + sizeof_mach_header_64) % W64) =
        .ok { protection := 5, max_protection := 7 } ∧
      reads (get_image_size (memTarget scenA_mem) (fun _ => 0) 0x100000
          World.init).world.trace =
        reads World.init.trace ++ [(0x100000, sizeof_mach_header),
          ((0x100000 + sizeof_mach_header_64) % W64,
            u32 (read_header (memTarget scenA_mem) 0x100000) 20)]) ∧
    (u32 (read_header (memTarget (fun _ => 0)) 0x5000) 0 ≠ MH_MAGIC ∧
      u32 (read_header (memTarget (fun _ => 0)) 0x5000) 0 ≠ MH_MAGIC_64 ∧
      ∃ w1 w2, get_image_size (memTarget (fun _ => 0)) (fun _ => 0) 0x5000 World.init =
          .exit 1 w1 ∧
        dump_binary (memTarget (fun _ => 0)) (fun _ => 0) 0x5000 (fun _ => 0) World.init =
          .exit 1 w2 ∧
        reads w1.trace = reads World.init.trace ++ [(0x5000, sizeof_mach_header)] ∧
        reads w2.trace = reads World.init.trace ++ [(0x5000, sizeof_mach_header)] ∧
        w1.trace.getLast? = some (.msg .not_macho) ∧
        w2.trace.getLast? = some (.msg .not_macho)) := by
  have hm : u32 (read_header (memTarget scenA_mem) 0x100000) 0 = MH_MAGIC_64 := by decide
  have h1 : u32 (read_header (memTarget (fun _ => 0)) 0x5000) 0 ≠ MH_MAGIC := by decide
  have h2 : u32 (read_header (memTarget (fun _ => 0)) 0x5000) 0 ≠ MH_MAGIC_64 := by decide
  exact ⟨⟨rfl, rfl, hm, rfl,
      (((magic_check_gates_load_commands (memTarget scenA_mem) (fun _ => 0) 0x100000
        (fun _ => 0) World.init { protection := 5, max_protection := 7 } rfl rfl).2
        sizeof_mach_header_64 (Or.inr ⟨hm, rfl⟩)).1
        { protection := 5, max_protection := 7 } rfl).1⟩,
    ⟨h1, h2,
      (magic_check_gates_load_commands (memTarget (fun _ => 0)) (fun _ => 0) 0x5000
        (fun _ => 0) World.init { protection := 5, max_protection := 7 } rfl rfl).1 h1 h2⟩⟩

/-! ## Locating the main binary -/

theorem region_lookup_skip (pre rs : List (Nat × Nat)) (iter : Nat)
    (h : ∀ x ∈ pre, x.1 + x.2 ≤ iter) :
    region_lookup (pre ++ rs) iter = region_lookup rs iter := by
  induction pre with
  | nil => rfl
  | cons p pre ih =>
    have hp : ¬ iter < p.1 + p.2 := by
      have := h p (by simp)
      omega
    have ih1 := ih (fun x hx => h x (by simp [hx]))
    unfold region_lookup at ih1 ⊢
    simp only [List.cons_append, List.find?_cons, hp, decide_False]
    exact ih1

theorem fmb_loop_scan (t : Target) (regions : List (Nat × Nat))
    (hreg : t.vm_region_recurse_64 = region_lookup regions) :
    ∀ (rs pre : List (Nat × Nat)) (iter fuel a : Nat) (w : World),
      regions = pre ++ rs → (∀ x ∈ pre, x.1 + x.2 ≤ iter) →
      regions_ascending rs iter = true → rs.length < fuel →
      fmb_loop t fuel iter a w = some (scan_regions t rs a w) := by
  intro rs
  induction rs with
  | nil =>
    intro pre iter fuel a w hsplit hpre _ hfuel
    obtain ⟨f, rfl⟩ : ∃ f, fuel = f + 1 := ⟨fuel - 1, by simp at hfuel; omega⟩
    have hl : t.vm_region_recurse_64 iter = none := by
      rw [hreg, hsplit, region_lookup_skip pre [] iter hpre]
      rfl
    rw [fmb_loop, hl]
    rfl
  | cons r rs ih =>
    intro pre iter fuel a w hsplit hpre hasc hfuel
    obtain ⟨f, rfl⟩ : ∃ f, fuel = f + 1 := ⟨fuel - 1, by simp at hfuel; omega⟩
    simp only [regions_ascending, Bool.and_eq_true, decide_eq_true_eq] at hasc
    obtain ⟨⟨hlo, hpos, hend⟩, hrest⟩ := hasc
    have hl : t.vm_region_recurse_64 iter = some (r.1, r.2) := by
      rw [hreg, hsplit, region_lookup_skip pre (r :: rs) iter hpre]
      have : iter < r.1 + r.2 := by omega
      simp [region_lookup, List.find?_cons, this]
    have hmod : (r.1 + r.2) % W64 = r.1 + r.2 := Nat.mod_eq_of_lt hend
    rw [fmb_loop, hl]
    simp only [scan_regions, hmod]
    by_cases hq : is_main_header t r.1 = true
    · rw [if_pos hq]
      have hq1 := hq
      simp only [is_main_header, read_header, decide_eq_true_eq] at hq1
      rw [if_pos hq1]
    · rw [if_neg hq]
      have hq1 := hq
      simp only [is_main_header, read_header, decide_eq_true_eq] at hq1
      rw [if_neg hq1]
      apply ih (pre ++ [r]) (r.1 + r.2) f a _ (by rw [hsplit]; simp)
      · intro x hx
        rcases List.mem_append.mp hx with hx | hx
        · have := hpre x hx
          omega
        · simp only [List.mem_singleton] at hx
          subst hx
          exact Nat.le_refl _
      · exact hrest
      · simp at hfuel
        omega

theorem scan_regions_found (t : Target) :
    ∀ (rs : List (Nat × Nat)) (r : Nat × Nat) (a : Nat) (w : World),
      rs.find? (fun x => is_main_header t x.1) = some r →
      (scan_regions t rs a w).1 = r.1 ∧
      (scan_regions t rs a w).2.vmaddr_slide = w.vmaddr_slide ∧
      (scan_regions t rs a w).2.trace = w.trace ++
        ((rs.takeWhile (fun x => !is_main_header t x.1)) ++ [r]).map
          (fun x => Event.vm_read x.1 sizeof_mach_header) := by
  intro rs
  induction rs with
  | nil =>
    intro r a w h
    simp at h
  | cons x rs ih =>
    intro r a w h
    by_cases hq : is_main_header t x.1 = true
    · simp only [List.find?_cons, hq, Option.some.injEq] at h
      subst h
      simp [scan_regions, hq, World.log, List.takeWhile_cons]
    · simp only [Bool.not_eq_true] at hq
      simp only [List.find?_cons, hq] at h
      obtain ⟨h1, h2, h3⟩ := ih r a (w.log (.vm_read x.1 sizeof_mach_header)) h
      simp only [scan_regions, hq, Bool.false_eq_true, if_false, List.takeWhile_cons,
        Bool.not_false, if_true]
      refine ⟨h1, h2, ?_⟩
      rw [h3]
      simp [World.log]

theorem scan_regions_not_found (t : Target) :
    ∀ (rs : List (Nat × Nat)) (a : Nat) (w : World),
      rs.find? (fun x => is_main_header t x.1) = none →
      (scan_regions t rs a w).1 = a ∧
      (scan_regions t rs a w).2.vmaddr_slide = w.vmaddr_slide ∧
      (scan_regions t rs a w).2.trace = w.trace ++
        rs.map (fun x => Event.vm_read x.1 sizeof_mach_header) := by
  intro rs
  induction rs with
  | nil =>
    intro a w _
    simp [scan_regions]
  | cons x rs ih =>
    intro a w h
    by_cases hq : is_main_header t x.1 = true
    · simp [List.find?_cons, hq] at h
    · simp only [Bool.not_eq_true] at hq
      simp only [List.find?_cons, hq] at h
      obtain ⟨h1, h2, h3⟩ := ih a (w.log (.vm_read x.1 sizeof_mach_header)) h
      simp only [scan_regions, hq, Bool.false_eq_true, if_false]
      refine ⟨h1, h2, ?_⟩
      rw [h3]
      simp [World.log]

theorem map_vm_read_header (l : List (Nat × Nat)) :
    l.map (fun x => Event.vm_read x.1 sizeof_mach_header) =
      (l.map (fun x => (x.1, sizeof_mach_header))).map (fun p => Event.vm_read p.1 p.2) := by
  simp [List.map_map, Function.comp_def]

/-- C8. For a finite ascending sequence of regions of which `r` is the first,
in enumeration order, whose base holds a fully readable header with a
recognized magic and file type `MH_EXECUTE`, `find_main_binary` (given enough
iterations) returns `KERN_SUCCESS` with `*main_address` set to the base of `r`.
It has read the header of each earlier region and of `r` and of no later one,
and printed nothing: the earlier regions, whose read failed or was short or
held another magic or file type, are skipped without error. -/
theorem find_main_binary_first_executable (t : Target) (regions : List (Nat × Nat))
    (r : Nat × Nat) (fuel a : Nat) (w : World)
    (htask : t.task_for_pid = true)
    (hreg : t.vm_region_recurse_64 = region_lookup regions)
    (hasc : regions_ascending regions 0 = true)
    (hfind : regions.find? (fun x => is_main_header t x.1) = some r)
    (hfuel : regions.length < fuel) :
    ∃ w', find_main_binary t fuel a w = some (KERN_SUCCESS, r.1, w') ∧
      reads w'.trace = reads w.trace ++
        ((regions.takeWhile (fun x => !is_main_header t x.1)) ++ [r]).map
          (fun x => (x.1, sizeof_mach_header)) ∧
      msgs w'.trace = msgs w.trace := by
  obtain ⟨h1, _, h3⟩ := scan_regions_found t regions r a w hfind
  unfold find_main_binary
  rw [if_neg (by simp [htask]),
    fmb_loop_scan t regions hreg regions [] 0 fuel a w rfl (by simp) hasc hfuel]
  refine ⟨(scan_regions t regions a w).2, ?_, ?_, ?_⟩
  · simp only []
    rw [← h1]
  · rw [h3, map_vm_read_header, reads_append_vm_reads]
  · rw [h3, map_vm_read_header, msgs_append_vm_reads]

/-- Instance of C8 at Scenario B: of three regions only the second holds a
main executable, and its base 0x100000 is returned. -/
theorem find_main_binary_first_executable_witness :
    scenB_target.task_for_pid = true ∧
    scenB_target.vm_region_recurse_64 = region_lookup scenB_regions ∧
    regions_ascending scenB_regions 0 = true ∧
    scenB_regions.find? (fun x => is_main_header scenB_target x.1) = some (0x100000, 0x4000) ∧
    scenB_regions.length < 4 ∧
    ∃ w', find_main_binary scenB_target 4 0 World.init = some (KERN_SUCCESS, 0x100000, w') ∧
      reads w'.trace = [(0x1000, sizeof_mach_header), (0x100000, sizeof_mach_header)] ∧
      msgs w'.trace = [] := by
  have hfind : scenB_regions.find? (fun x => is_main_header scenB_target x.1) =
      some (0x100000, 0x4000) := by decide
  have htw : (scenB_regions.takeWhile (fun x => !is_main_header scenB_target x.1)) =
      [(0x1000, 0x1000)] := by decide
  have T := find_main_binary_first_executable scenB_target scenB_regions (0x100000, 0x4000)
    4 0 World.init rfl rfl (by decide) hfind (by decide)
  rw [htw] at T
  exact ⟨rfl, rfl, by decide, hfind, by decide, T⟩

theorem find_main_binary_none_found (t : Target) (regions : List (Nat × Nat))
    (fuel a : Nat) (w : World)
    (htask : t.task_for_pid = true)
    (hreg : t.vm_region_recurse_64 = region_lookup regions)
    (hasc : regions_ascending regions 0 = true)
    (hfind : regions.find? (fun x => is_main_header t x.1) = none)
    (hfuel : regions.length < fuel) :
    ∃ w', find_main_binary t fuel a w = some (KERN_SUCCESS, a, w') ∧
      msgs w'.trace = msgs w.trace := by
  obtain ⟨h1, _, h3⟩ := scan_regions_not_found t regions a w hfind
  unfold find_main_binary
  rw [if_neg (by simp [htask]),
    fmb_loop_scan t regions hreg regions [] 0 fuel a w rfl (by simp) hasc hfuel]
  refine ⟨(scan_regions t regions a w).2, ?_, ?_⟩
  · simp only []
    rw [h1]
  · rw [h3, map_vm_read_header, msgs_append_vm_reads]

/-- C9. Failing input: a process whose only region holds a dylib, so that no
region holds a main executable.  `find_main_binary` returns `KERN_SUCCESS` and
leaves `*main_address` as it was.  With `-m -o memdump`, `main` does not print
its cannot-find diagnostic: it goes on to `get_image_size` at address 0, reads
there, and stops on the not-a-Mach-O check.  With `-m -a 0x200000 -o memdump`
it dumps the dylib at 0x200000 as if it were the main binary and reports
success. -/
theorem find_main_binary_reports_success_when_nothing_found :
    (find_main_binary dylib_target 4 0 World.init).map (fun x => (x.1, x.2.1)) =
      some (KERN_SUCCESS, 0) ∧
    (main dylib_target host_ok opts_main 4).map
        (fun r => (r.value?, msgs r.world.trace, reads r.world.trace)) =
      some (none, [.not_macho], [(0x200000, 28), (0, 28)]) ∧
    (main dylib_target host_ok opts_main_addr 4).map
        (fun r => (r.value?, msgs r.world.trace, fwrites r.world.trace)) =
      some (some 0, [.ok_full_binary_dumped], [dylib_image.take 16]) := by
  refine ⟨by decide, by decide, by decide⟩

/-! ## Size validation of a plain read -/

theorem main_plain_rejects (t : Target) (h : Host) (o : Options) (fuel : Nat)
    (hfull : o.fulldump = false) (hmain : o.maindump = false)
    (hbad : o.size % W32 = 0 ∨ MAX_SIZE < o.size % W32) :
    ∃ w', main t h o fuel = some (.exit 1 w') ∧ reads w'.trace = [] ∧
      (o.pid ≠ 0 → (o.outputname ≠ none → o.address ≠ 0) →
        msgs w'.trace = [.invalid_size]) := by
  have hcond : o.size % W32 > MAX_SIZE ∨ (o.size % W32 = 0 ∧ o.fulldump = false) := by
    rcases hbad with h0 | h1
    · exact Or.inr ⟨h0, hfull⟩
    · exact Or.inl h1
  unfold main
  by_cases hpid : o.pid = 0
  · rw [if_pos hpid]
    exact ⟨_, rfl, by simp [World.log, World.init, reads], fun hp => absurd hpid hp⟩
  · rw [if_neg hpid, if_neg (by simp [hfull]), if_neg (by simp [hfull])]
    by_cases hout : o.outputname ≠ none ∧ o.address = 0 ∧ o.maindump = false
    · rw [if_pos hout]
      exact ⟨_, rfl, by simp [World.log, World.init, reads],
        fun _ ha => absurd hout.2.1 (ha hout.1)⟩
    · rw [if_neg hout, if_neg (by simp [hmain]), if_pos hcond]
      exact ⟨_, rfl, by simp [World.log, World.init, reads],
        fun _ _ => by simp [World.log, World.init, msgs]⟩

theorem main_plain_malloc_fails (t : Target) (h : Host) (o : Options) (fuel : Nat)
    (hfull : o.fulldump = false) (hmalloc : h.malloc_ok = false) :
    ∃ w', main t h o fuel = some (.exit 1 w') ∧ reads w'.trace = [] := by
  unfold main
  simp only [hfull, hmalloc, and_self, if_true]
  split_ifs <;> exact ⟨_, rfl, by simp [World.log, World.init, reads]⟩

/-- C10, amended. For a plain read (neither `-f` nor `-m`), `main` decides on
the size it holds, the `-s` value cast to `uint32_t`: it issues a memory read
only if that size is non-zero and at most `MAX_SIZE` (100000000).  For a held
size of zero or above `MAX_SIZE` it exits with status 1 and zero reads issued
(with the invalid-size diagnostic once the pid and address checks have
passed), and so it does, with zero reads, when the buffer allocation fails.
With a held size in range, the checks passed, the buffer allocated and the
target's task and region available, it issues exactly one read, of the held
size at the address.  For a `-s` value below `2 ^ 32` the held size is the
requested size. -/
theorem plain_read_size_gate (t : Target) (h : Host) (o : Options) (fuel : Nat)
    (hfull : o.fulldump = false) (hmain : o.maindump = false) :
    (∃ r, main t h o fuel = some r ∧
      (reads r.world.trace ≠ [] → o.size % W32 ≠ 0 ∧ o.size % W32 ≤ MAX_SIZE) ∧
      (o.size < W32 → reads r.world.trace ≠ [] → o.size ≠ 0 ∧ o.size ≤ MAX_SIZE)) ∧
    (o.size % W32 = 0 ∨ MAX_SIZE < o.size % W32 →
      ∃ w', main t h o fuel = some (.exit 1 w') ∧ reads w'.trace = [] ∧
        (o.pid ≠ 0 → (o.outputname ≠ none → o.address ≠ 0) →
          msgs w'.trace = [.invalid_size])) ∧
    (h.malloc_ok = false →
      ∃ w', main t h o fuel = some (.exit 1 w') ∧ reads w'.trace = []) ∧
    (o.size % W32 ≠ 0 → o.size % W32 ≤ MAX_SIZE → o.pid ≠ 0 →
      (o.outputname ≠ none → o.address ≠ 0) → h.malloc_ok = true →
      (o.outputname ≠ none → h.fopen_ok = true) → t.task_for_pid = true →
      (∃ info, t.mach_vm_region o.address = .ok info) →
      ∃ r, main t h o fuel = some r ∧ reads r.world.trace = [(o.address, o.size % W32)]) := by
  refine ⟨?_, main_plain_rejects t h o fuel hfull hmain,
    main_plain_malloc_fails t h o fuel hfull, ?_⟩
  · have key : ∃ r, main t h o fuel = some r ∧
        (reads r.world.trace ≠ [] → o.size % W32 ≠ 0 ∧ o.size % W32 ≤ MAX_SIZE) := by
      by_cases hbad : o.size % W32 = 0 ∨ MAX_SIZE < o.size % W32
      · obtain ⟨w', e, hr, _⟩ := main_plain_rejects t h o fuel hfull hmain hbad
        exact ⟨_, e, fun hne => absurd hr hne⟩
      · have hmainEq : ∃ r, main t h o fuel = some r := by
          unfold main
          simp only [hfull, hmain, Bool.false_eq_true, false_and, false_or, if_false]
          split_ifs <;> exact ⟨_, rfl⟩
        obtain ⟨r, e⟩ := hmainEq
        exact ⟨r, e, fun _ => by omega⟩
    obtain ⟨r, e, hr⟩ := key
    refine ⟨r, e, hr, ?_⟩
    intro hlt hne
    have := hr hne
    rw [Nat.mod_eq_of_lt hlt] at this
    exact this
  · intro hnz hle hpid haddr hmalloc hfopen htask hregion
    obtain ⟨info, hreg⟩ := hregion
    have hsz : ¬ (o.size % W32 > MAX_SIZE ∨ (o.size % W32 = 0 ∧ o.fulldump = false)) := by
      rintro (h1 | ⟨h0, _⟩)
      · omega
      · exact hnz h0
    have hmem : ¬ (o.fulldump = false ∧ h.malloc_ok = false) := by
      rintro ⟨_, h2⟩
      rw [hmalloc] at h2
      exact Bool.noConfusion h2
    have hopen : ¬ (o.outputname ≠ none ∧ h.fopen_ok = false) := by
      rintro ⟨h1, h2⟩
      rw [hfopen h1] at h2
      exact Bool.noConfusion h2
    have hstart : ¬ (o.outputname ≠ none ∧ o.address = 0 ∧ o.maindump = false) := by
      rintro ⟨h1, h2, _⟩
      exact haddr h1 h2
    obtain ⟨w1, e1, _, r1⟩ := readmem_ret t h.heap_readbuffer 0 o.address (o.size % W32)
      (World.init.log (.malloc (o.size % W32))) info htask hreg
    have hr0 : reads (World.init.log (.malloc (o.size % W32))).trace = [] := by
      simp [World.log, World.init, reads]
    rw [hr0, List.nil_append] at r1
    unfold main
    rw [if_neg hpid, if_neg (by simp [hfull]), if_neg (by simp [hfull]), if_neg hstart,
      if_neg (by simp [hmain]), if_neg hsz, if_neg hmem]
    simp only [hfull, if_true]
    rw [if_neg hopen, if_neg (by simp), if_neg (by simp [hmain])]
    unfold main_plain
    rw [e1]
    simp only []
    split_ifs
    · exact ⟨_, rfl, by simp [Run.world, World.log, reads, List.filterMap_append] at r1 ⊢; exact r1⟩
    · exact ⟨_, rfl, by simp [Run.world, World.log, reads, List.filterMap_append] at r1 ⊢; exact r1⟩
    · exact ⟨_, rfl, by simp [Run.world, World.log, reads, List.filterMap_append] at r1 ⊢; exact r1⟩

/-- Instance of C10 (amended) at the `-s` values 16, 0, `MAX_SIZE + 1` and
`2 ^ 32 + 16`, and at a host without memory. -/
theorem plain_read_size_gate_witness :
    (opts_plain.fulldump = false ∧ opts_plain.maindump = false ∧
      opts_plain.size % W32 ≠ 0 ∧ opts_plain.size % W32 ≤ MAX_SIZE ∧
      ∃ r, main unreadableTarget host_ok opts_plain 0 = some r ∧
        reads r.world.trace = [(0x1000, 16)]) ∧
    (opts_plain_zero.size % W32 = 0 ∧
      ∃ w', main unreadableTarget host_ok opts_plain_zero 0 = some (.exit 1 w') ∧
        reads w'.trace = [] ∧ msgs w'.trace = [.invalid_size]) ∧
    (MAX_SIZE < opts_plain_over.size % W32 ∧
      ∃ w', main unreadableTarget host_ok opts_plain_over 0 = some (.exit 1 w') ∧
        reads w'.trace = [] ∧ msgs w'.trace = [.invalid_size]) ∧
    (opts_plain_wrapped.size % W32 = 16 ∧
      ∃ r, main unreadableTarget host_ok opts_plain_wrapped 0 = some r ∧
        reads r.world.trace = [(0x1000, 16)]) ∧
    (host_no_memory.malloc_ok = false ∧
      ∃ w', main unreadableTarget host_no_memory opts_plain 0 = some (.exit 1 w') ∧
        reads w'.trace = []) := by
  have h16 : opts_plain.size % W32 = 16 := by decide
  have hw16 : opts_plain_wrapped.size % W32 = 16 := by decide
  refine ⟨⟨rfl, rfl, by decide, by decide, ?_⟩, ⟨by decide, ?_⟩, ⟨by decide, ?_⟩,
    ⟨hw16, ?_⟩, ⟨rfl, ?_⟩⟩
  · have T := (plain_read_size_gate unreadableTarget host_ok opts_plain 0 rfl rfl).2.2.2
      (by decide) (by decide) (by decide) (fun _ => by decide) rfl
      (fun hne => absurd rfl hne) rfl ⟨_, rfl⟩
    rw [h16] at T
    exact T
  · obtain ⟨w', e, hr, hm⟩ :=
      (plain_read_size_gate unreadableTarget host_ok opts_plain_zero 0 rfl rfl).2.1
        (Or.inl (by decide))
    exact ⟨w', e, hr, hm (by decide) (fun _ => by decide)⟩
  · obtain ⟨w', e, hr, hm⟩ :=
      (plain_read_size_gate unreadableTarget host_ok opts_plain_over 0 rfl rfl).2.1
        (Or.inr (by decide))
    exact ⟨w', e, hr, hm (by decide) (fun _ => by decide)⟩
  · have T := (plain_read_size_gate unreadableTarget host_ok opts_plain_wrapped 0 rfl rfl).2.2.2
      (by decide) (by decide) (by decide) (fun _ => by decide) rfl
      (fun hne => absurd rfl hne) rfl ⟨_, rfl⟩
    rw [hw16] at T
    exact T
  · exact (plain_read_size_gate unreadableTarget host_no_memory opts_plain 0 rfl rfl).2.2.1 rfl

/-- C10, as stated. Two plain reads whose requested size is not strictly below
`MAX_SIZE` are not rejected: for a size equal to `MAX_SIZE` `main` issues the
read, and for the size `2 ^ 32 + 16`, which the cast to `uint32_t` turns into
16, it issues a read of 16 bytes. -/
theorem plain_read_of_max_size_is_issued :
    opts_plain_max.size = MAX_SIZE ∧ ¬ (opts_plain_max.size < MAX_SIZE) ∧
    (main unreadableTarget host_ok opts_plain_max 0).map (fun r => reads r.world.trace) =
      some [(0x1000, 100000000)] ∧
    opts_plain_wrapped.size = 2 ^ 32 + 16 ∧ ¬ (opts_plain_wrapped.size < MAX_SIZE) ∧
    (main unreadableTarget host_ok opts_plain_wrapped 0).map (fun r => reads r.world.trace) =
      some [(0x1000, 16)] := by
  refine ⟨rfl, by decide, by decide, by decide, by decide, by decide⟩

/-! ## Segment names are compared as C strings -/

theorem takeWhile_eq_iff_name_then_nul (lit : List Nat) :
    ∀ (s : Nat → Nat) (n : Nat), (∀ c ∈ lit, c ≠ 0) → lit.length < n →
      (((List.range n).map s).takeWhile (fun c => decide (c ≠ 0)) = lit ↔
        ((List.range lit.length).map s = lit ∧ s lit.length = 0)) := by
  induction lit with
  | nil =>
    intro s n _ hn
    obtain ⟨m, rfl⟩ : ∃ m, n = m + 1 := ⟨n - 1, by simp at hn; omega⟩
    rw [List.range_succ_eq_map]
    by_cases h0 : s 0 = 0
    · simp [h0]
    · simp [h0]
  | cons c cs ih =>
    intro s n hnz hn
    obtain ⟨m, rfl⟩ : ∃ m, n = m + 1 := ⟨n - 1, by simp at hn; omega⟩
    have hc : c ≠ 0 := hnz c (by simp)
    have hcs : ∀ d ∈ cs, d ≠ 0 := fun d hd => hnz d (by simp [hd])
    have hm : cs.length < m := by simp at hn; omega
    have ih1 := ih (fun i => s (i + 1)) m hcs hm
    have hmap : ∀ k, List.map s (List.map Nat.succ (List.range k)) =
        List.map (fun i => s (i + 1)) (List.range k) := by
      intro k
      simp [List.map_map, Function.comp_def]
    rw [List.range_succ_eq_map, List.length_cons, List.range_succ_eq_map]
    simp only [List.map_cons, hmap]
    by_cases hs : s 0 = c
    · have hs0 : s 0 ≠ 0 := by rw [hs]; exact hc
      have e : List.takeWhile (fun c => decide (c ≠ 0))
          (s 0 :: List.map (fun i => s (i + 1)) (List.range m)) =
          s 0 :: List.takeWhile (fun c => decide (c ≠ 0))
            (List.map (fun i => s (i + 1)) (List.range m)) := by
        simp [List.takeWhile_cons, hs0]
      rw [e, hs]
      simp only [List.cons.injEq, true_and]
      exact ih1
    · by_cases hs0 : s 0 = 0
      · simp [List.takeWhile_cons, hs0, hs, Ne.symm hc]
      · simp [List.takeWhile_cons, hs0, hs]

theorem c_name_eq_iff (field : Nat → Nat) (lit : List Nat) (hnz : ∀ c ∈ lit, c ≠ 0)
    (hlen : lit.length < 16) : c_name field = lit ↔ name_then_nul field lit = true := by
  unfold c_name name_then_nul
  rw [takeWhile_eq_iff_name_then_nul lit field 16 hnz hlen, decide_eq_true_eq]

theorem strncmp_TEXT_iff (field : Nat → Nat) :
    strncmp field (cstr str_TEXT) 16 = 0 ↔ name_then_nul field str_TEXT = true := by
  rw [strncmp_TEXT, c_name_eq_iff field str_TEXT (by decide) (by decide)]

theorem strncmp_PAGEZERO_iff (field : Nat → Nat) :
    strncmp field (cstr str_PAGEZERO) 16 = 0 ↔ name_then_nul field str_PAGEZERO = true := by
  rw [strncmp_PAGEZERO, c_name_eq_iff field str_PAGEZERO (by decide) (by decide)]

theorem text_excludes_pagezero (field : Nat → Nat)
    (h : name_then_nul field str_TEXT = true) : name_then_nul field str_PAGEZERO = false := by
  rw [← c_name_eq_iff field str_TEXT (by decide) (by decide)] at h
  have hne : ¬ name_then_nul field str_PAGEZERO = true := by
    rw [← c_name_eq_iff field str_PAGEZERO (by decide) (by decide), h]
    exact str_TEXT_ne_PAGEZERO
  simpa using hne

theorem LC_SEGMENT_64_ne : LC_SEGMENT_64 ≠ LC_SEGMENT := by decide

theorem gis_body_segment (loadcmds : Buf) (address cur : Nat) (st : Nat × Nat)
    (hseg : lc_cmd loadcmds cur = LC_SEGMENT ∨ lc_cmd loadcmds cur = LC_SEGMENT_64) :
    gis_body loadcmds address cur st =
      if name_then_nul (seg_segname loadcmds cur) str_PAGEZERO = true then st
      else
        (if name_then_nul (seg_segname loadcmds cur) str_TEXT = true then
            (address + W64 - record_vmaddr loadcmds cur) % W64
          else st.1,
          (st.2 + record_filesize loadcmds cur) % W64) := by
  unfold gis_body record_vmaddr record_filesize
  simp only [strncmp_PAGEZERO_iff, strncmp_TEXT_iff, ne_eq]
  rcases hseg with h | h
  · rw [if_pos h, if_pos h, if_pos h]
    by_cases hp : name_then_nul (seg_segname loadcmds cur) str_PAGEZERO = true
    · rw [if_neg (not_not.mpr hp), if_pos hp]
    · rw [if_pos hp, if_neg hp]
  · have hne : ¬ lc_cmd loadcmds cur = LC_SEGMENT := by
      rw [h]
      exact LC_SEGMENT_64_ne
    rw [if_neg hne, if_pos h, if_neg hne, if_neg hne]
    by_cases hp : name_then_nul (seg_segname loadcmds cur) str_PAGEZERO = true
    · rw [if_neg (not_not.mpr hp), if_pos hp]
    · rw [if_pos hp, if_neg hp]

theorem dump_loop_one_segment (mem : Nat → Nat) (loadcmds : Buf) (cur : Nat) (buffer : Buf)
    (off : Nat) (w : World)
    (hseg : lc_cmd loadcmds cur = LC_SEGMENT ∨ lc_cmd loadcmds cur = LC_SEGMENT_64) :
    reads (dump_loop (memTarget mem) loadcmds 1 cur buffer off w).world.trace =
      reads w.trace ++
        (if name_then_nul (seg_segname loadcmds cur) str_PAGEZERO = true then []
          else [((record_vmaddr loadcmds cur + w.vmaddr_slide) % W64,
            record_filesize loadcmds cur)]) := by
  obtain ⟨b, o, w', e1, _, e3⟩ := dump_loop_memTarget_trace mem loadcmds 1 cur buffer off w
  rw [e1]
  simp only [Run.world]
  rw [e3, reads_append_vm_reads]
  simp only [commands, segment_reads, List.filterMap_cons, List.filterMap_nil]
  rw [read_of_decode]
  unfold record_vmaddr record_filesize
  simp only [strncmp_PAGEZERO_iff, ne_eq]
  rcases hseg with h | h
  · rw [if_pos h, if_pos h, if_pos h]
    by_cases hp : name_then_nul (seg_segname loadcmds cur) str_PAGEZERO = true
    · rw [if_neg (not_not.mpr hp), if_pos hp]
    · rw [if_pos hp, if_neg hp]
  · have hne : ¬ lc_cmd loadcmds cur = LC_SEGMENT := by
      rw [h]
      exact LC_SEGMENT_64_ne
    rw [if_neg hne, if_pos h, if_neg hne, if_neg hne]
    by_cases hp : name_then_nul (seg_segname loadcmds cur) str_PAGEZERO = true
    · rw [if_neg (not_not.mpr hp), if_pos hp]
    · rw [if_pos hp, if_neg hp]

theorem range_16 : List.range 16 = [0, 1, 2, 3, 4, 5, 6, 7, 8, 9, 10, 11, 12, 13, 14, 15] := by
  decide

theorem exact_match_TEXT (field : Nat → Nat) (h : exact_field_match field str_TEXT = true) :
    name_then_nul field str_TEXT = true := by
  simp only [exact_field_match, field_bytes, decide_eq_true_eq, range_16] at h
  have hb : segname_bytes str_TEXT = [95, 95, 84, 69, 88, 84, 0, 0, 0, 0, 0, 0, 0, 0, 0, 0] := by
    decide
  rw [hb] at h
  simp only [List.map_cons, List.map_nil, List.cons.injEq, and_true] at h
  obtain ⟨h0, h1, h2, h3, h4, h5, h6, _⟩ := h
  have hr : List.range 6 = [0, 1, 2, 3, 4, 5] := by decide
  have hl : str_TEXT.length = 6 := by decide
  simp only [name_then_nul, decide_eq_true_eq, hl, hr, List.map_cons, List.map_nil]
  rw [h0, h1, h2, h3, h4, h5, h6]
  exact ⟨rfl, rfl⟩

theorem exact_match_PAGEZERO (field : Nat → Nat)
    (h : exact_field_match field str_PAGEZERO = true) :
    name_then_nul field str_PAGEZERO = true := by
  simp only [exact_field_match, field_bytes, decide_eq_true_eq, range_16] at h
  have hb : segname_bytes str_PAGEZERO =
      [95, 95, 80, 65, 71, 69, 90, 69, 82, 79, 0, 0, 0, 0, 0, 0] := by
    decide
  rw [hb] at h
  simp only [List.map_cons, List.map_nil, List.cons.injEq, and_true] at h
  obtain ⟨h0, h1, h2, h3, h4, h5, h6, h7, h8, h9, h10, _⟩ := h
  have hr : List.range 10 = [0, 1, 2, 3, 4, 5, 6, 7, 8, 9] := by decide
  have hl : str_PAGEZERO.length = 10 := by decide
  simp only [name_then_nul, decide_eq_true_eq, hl, hr, List.map_cons, List.map_nil]
  rw [h0, h1, h2, h3, h4, h5, h6, h7, h8, h9, h10]
  exact ⟨rfl, rfl⟩

/-- C11, amended. Segment names are compared as NUL-terminated strings bounded
by the 16-byte field (`strncmp` with length 16), not by exact match of the
whole field.  For a segment command of either width, the comparison with
"__TEXT" (resp. "__PAGEZERO") succeeds if and only if the field starts with
that name and the byte right after it is NUL; the bytes behind that NUL are
never looked at.  Accordingly `get_image_size` leaves the record out of the
size when the field is "__PAGEZERO" in this sense, and otherwise adds its
`filesize` and takes it for the slide exactly when the field is "__TEXT" in
this sense; `dump_binary` issues the read for the record exactly when the field
is not "__PAGEZERO" in this sense.  A field equal to the name followed only by
zero bytes matches, but so does any field that differs from it behind the NUL. -/
theorem segname_compared_as_c_string (loadcmds : Buf) (address cur : Nat) (st : Nat × Nat)
    (hseg : lc_cmd loadcmds cur = LC_SEGMENT ∨ lc_cmd loadcmds cur = LC_SEGMENT_64) :
    (strncmp (seg_segname loadcmds cur) (cstr str_TEXT) 16 = 0 ↔
      name_then_nul (seg_segname loadcmds cur) str_TEXT = true) ∧
    (strncmp (seg_segname loadcmds cur) (cstr str_PAGEZERO) 16 = 0 ↔
      name_then_nul (seg_segname loadcmds cur) str_PAGEZERO = true) ∧
    gis_body loadcmds address cur st =
      (if name_then_nul (seg_segname loadcmds cur) str_PAGEZERO = true then st
      else
        (if name_then_nul (seg_segname loadcmds cur) str_TEXT = true then
            (address + W64 - record_vmaddr loadcmds cur) % W64
          else st.1,
          (st.2 + record_filesize loadcmds cur) % W64)) ∧
    (∀ (mem : Nat → Nat) (buffer : Buf) (off : Nat) (w : World),
      reads (dump_loop (memTarget mem) loadcmds 1 cur buffer off w).world.trace =
        reads w.trace ++
          (if name_then_nul (seg_segname loadcmds cur) str_PAGEZERO = true then []
            else [((record_vmaddr loadcmds cur + w.vmaddr_slide) % W64,
              record_filesize loadcmds cur)])) ∧
    (exact_field_match (seg_segname loadcmds cur) str_TEXT = true →
      name_then_nul (seg_segname loadcmds cur) str_TEXT = true) ∧
    (exact_field_match (seg_segname loadcmds cur) str_PAGEZERO = true →
      name_then_nul (seg_segname loadcmds cur) str_PAGEZERO = true) := by
  exact ⟨strncmp_TEXT_iff _, strncmp_PAGEZERO_iff _,
    gis_body_segment loadcmds address cur st hseg,
    fun mem buffer off w => dump_loop_one_segment mem loadcmds cur buffer off w hseg,
    exact_match_TEXT _, exact_match_PAGEZERO _⟩

/-- Instance of C11 (amended) at the record of `nulx_image` whose name field
holds "__TEXT", NUL, 'X': it matches "__TEXT" as a C string without matching
exactly, and the loop body takes it for the slide and counts its file size. -/
theorem segname_compared_as_c_string_witness :
    (lc_cmd (loadcmds_of nulx_mem (fun _ => 0) 0x100000) 72 = LC_SEGMENT ∨
      lc_cmd (loadcmds_of nulx_mem (fun _ => 0) 0x100000) 72 = LC_SEGMENT_64) ∧
    name_then_nul (seg_segname (loadcmds_of nulx_mem (fun _ => 0) 0x100000) 72) str_TEXT =
      true ∧
    exact_field_match (seg_segname (loadcmds_of nulx_mem (fun _ => 0) 0x100000) 72) str_TEXT =
      false ∧
    gis_body (loadcmds_of nulx_mem (fun _ => 0) 0x100000) 0x100000 72 (0, 0) =
      (0xFF000, 0x20) := by
  have hseg : lc_cmd (loadcmds_of nulx_mem (fun _ => 0) 0x100000) 72 = LC_SEGMENT ∨
      lc_cmd (loadcmds_of nulx_mem (fun _ => 0) 0x100000) 72 = LC_SEGMENT_64 :=
    Or.inr (by decide)
  have T := (segname_compared_as_c_string (loadcmds_of nulx_mem (fun _ => 0) 0x100000)
    0x100000 72 (0, 0) hseg).2.2.1
  have hv : (if name_then_nul (seg_segname (loadcmds_of nulx_mem (fun _ => 0) 0x100000) 72)
        str_PAGEZERO = true then ((0, 0) : Nat × Nat)
      else
        (if name_then_nul (seg_segname (loadcmds_of nulx_mem (fun _ => 0) 0x100000) 72)
            str_TEXT = true then
            (0x100000 + W64 - record_vmaddr (loadcmds_of nulx_mem (fun _ => 0) 0x100000) 72) %
              W64
          else ((0, 0) : Nat × Nat).1,
          (((0, 0) : Nat × Nat).2 +
            record_filesize (loadcmds_of nulx_mem (fun _ => 0) 0x100000) 72) % W64)) =
      (0xFF000, 0x20) := by decide
  rw [hv] at T
  exact ⟨hseg, by decide, by decide, T⟩

/-- C11, as stated. Two name fields that hold the name, a NUL byte and then the
non-zero byte 'X' do not equal the name followed only by zero bytes, yet the
walk treats them as the named segments: the "__PAGEZERO" one (filesize 0x10)
is left out of the image size and gets no read in the dump, and the "__TEXT"
one (vmaddr 0x1000) sets the slide to 0x100000 - 0x1000. -/
theorem segname_bytes_after_nul_are_ignored :
    field_bytes (seg_segname (loadcmds_of nulx_mem (fun _ => 0) 0x100000) 0) =
      str_PAGEZERO ++ [0, 88, 0, 0, 0, 0] ∧
    exact_field_match (seg_segname (loadcmds_of nulx_mem (fun _ => 0) 0x100000) 0)
      str_PAGEZERO = false ∧
    field_bytes (seg_segname (loadcmds_of nulx_mem (fun _ => 0) 0x100000) 72) =
      str_TEXT ++ [0, 88, 0, 0, 0, 0, 0, 0, 0, 0] ∧
    exact_field_match (seg_segname (loadcmds_of nulx_mem (fun _ => 0) 0x100000) 72)
      str_TEXT = false ∧
    (get_image_size (memTarget nulx_mem) (fun _ => 0) 0x100000 World.init).value? =
      some 0x20 ∧
    (get_image_size (memTarget nulx_mem) (fun _ => 0) 0x100000 World.init).world.vmaddr_slide =
      0xFF000 ∧
    reads (dump_binary (memTarget nulx_mem) (fun _ => 0) 0x100000 (fun _ => 0)
        { vmaddr_slide := 0xFF000, trace := [] }).world.trace =
      [(0x100000, 28), (0x100020, 144), (0x100000, 0x20)] := by
  refine ⟨by decide, by decide, by decide, by decide, by decide, by decide, by decide⟩

end Readmem
